import Mathlib

/-!
# Verification of the `wt` fuzzy scorer and selection state machine

Shallow embedding of `internal/fuzzy/fuzzy.go` (the fuzzy-match scoring
engine) and of the two interactive pickers in `internal/tui` (`model`,
the plain worktree selector, and `branchModel`, the branch selector with
non-selectable "has worktree" entries), together with proofs of the
specification's claims about them.

Go strings are embedded as Lean `String`s; the Go code decodes them to
`[]rune`, which we embed as `String.toList : List Char`.  Go `int` values
that can be negative (scores, the cursor, `prevMatchIdx`) are embedded as
`Int`; rune indices recorded in `Positions` are `Nat`.
-/

namespace Wt

/-! ## `internal/fuzzy/fuzzy.go` -/

namespace fuzzy

/-- Scoring constants from `fuzzy.go`. -/
def bonusFirstChar : Int := 16
def bonusCamelCase : Int := 16
def bonusSeparator : Int := 16
def bonusAdjacent : Int := 8
def penaltyLeadingGap : Int := -3
def penaltyGap : Int := -1

/-- `Match` holds the result of scoring a string against a pattern
(`fuzzy.Match` in Go: `Score int`, `Matched bool`, `Positions []int`). -/
structure Match where
  score : Int
  matched : Bool
  positions : List Nat
deriving Repr, DecidableEq, Inhabited

/-- The zero value of Go's `fuzzy.Match` struct. -/
def Match.zero : Match := ⟨0, false, []⟩

/-- `isSeparator` from `fuzzy.go`. -/
def isSeparator (r : Char) : Bool :=
  r = '-' || r = '_' || r = '.' || r = '/'

/-- `isLower` from `fuzzy.go` (ASCII only). -/
def isLower (r : Char) : Bool :=
  'a' ≤ r && r ≤ 'z'

/-- `isUpper` from `fuzzy.go` (ASCII only). -/
def isUpper (r : Char) : Bool :=
  'A' ≤ r && r ≤ 'Z'

/-- The per-rune lowering performed inside `toLower` in `fuzzy.go`:
`if r >= 'A' && r <= 'Z' { r += 'a' - 'A' }` (`'a' - 'A' = 32`). -/
def toLowerRune (r : Char) : Char :=
  if isUpper r then Char.ofNat (r.toNat + 32) else r

/-- `toLower` from `fuzzy.go`: it decodes the string rune by rune and
lowers each rune independently, so it is the rune-wise map of
`toLowerRune`. -/
def toLower (s : String) : String :=
  ⟨s.toList.map toLowerRune⟩

/-- The block of scoring deltas `Score` applies when the scan matches
text rune `si` against pattern rune `pi`: leading-gap penalty (first
match) or gap penalty (later matches), first-character bonus, separator
bonus, camelCase bonus, adjacency bonus — in source order.  `orig` is the
original-case text, used for the boundary checks. -/
def matchDelta (orig : List Char) (si pi : Nat) (prevMatchIdx score : Int) : Int :=
  let score := if pi = 0 then
      -- Leading gap penalty
      score + (si : Int) * penaltyLeadingGap
    else
      -- Gap penalty between matches
      let gap : Int := (si : Int) - prevMatchIdx - 1
      if gap > 0 then score + gap * penaltyGap else score
  -- First character bonus
  let score := if si = 0 then score + bonusFirstChar else score
  -- Separator boundary bonus
  let score := if 0 < si ∧ isSeparator (orig.getD (si - 1) ' ') then
      score + bonusSeparator else score
  -- CamelCase boundary bonus
  let score := if 0 < si ∧ isLower (orig.getD (si - 1) ' ')
      ∧ isUpper (orig.getD si ' ') then
      score + bonusCamelCase else score
  -- Adjacency bonus
  if prevMatchIdx = (si : Int) - 1 then score + bonusAdjacent else score

/-- One pass of the scanning loop of `Score`.  Arguments mirror the Go
loop state: the remaining (lowered) text runes, the current text index
`si`, the pattern cursor `pi`, `prevMatchIdx` (an Int, `-1` before the
first match, exactly as in Go), the accumulated `score` and `positions`.
`pat` is the lowered pattern, `orig` the original-case text runes used for
the boundary checks.  The loop exits when the text is exhausted or
`pi = pat.length`; it returns `(score, positions, pi)`. -/
def scanLoop (pat orig : List Char) :
    List Char → Nat → Nat → Int → Int → List Nat → Int × List Nat × Nat
  | [], _, pi, _, score, pos => (score, pos, pi)
  | c :: rest, si, pi, prevMatchIdx, score, pos =>
    if hpi : pi < pat.length then
      if c = pat.get ⟨pi, hpi⟩ then
        -- Match found
        scanLoop pat orig rest (si + 1) (pi + 1) (si : Int)
          (matchDelta orig si pi prevMatchIdx score) (pos ++ [si])
      else
        scanLoop pat orig rest (si + 1) pi prevMatchIdx score pos
    else (score, pos, pi)

/-- The rune-level body of `Score` (everything after the two emptiness
guards): the length check, the scanning loop, and the final verdict.
`strRunes` is the lowered text, `patRunes` the lowered pattern,
`origRunes` the original-case text. -/
def ScoreList (strRunes patRunes origRunes : List Char) : Match :=
  if strRunes.length < patRunes.length then ⟨0, false, []⟩
  else if (scanLoop patRunes origRunes strRunes 0 0 (-1) 0 []).2.2
      < patRunes.length then ⟨0, false, []⟩
  else ⟨(scanLoop patRunes origRunes strRunes 0 0 (-1) 0 []).1, true,
    (scanLoop patRunes origRunes strRunes 0 0 (-1) 0 []).2.1⟩

/-- `Score` from `fuzzy.go`: scores `str` against `pattern` using the
greedy forward-scan algorithm with contextual bonuses. -/
def Score (str pattern : String) : Match :=
  if pattern = "" then ⟨0, true, []⟩
  else if str = "" then ⟨0, false, []⟩
  else ScoreList (toLower str).toList (toLower pattern).toList str.toList

end fuzzy

/-! ## `internal/tui` — the two pickers

The Bubble Tea plumbing (`tea.Program`, `textinput.Model`, `View`,
`Init`) is terminal I/O and rendering; the state-machine core embedded
here is the `Update` methods of `model` (plain worktree picker) and
`branchModel` (branch picker with disabled entries), plus their
constructors.  The text input is embedded as its value, the `query`
string.  Reaching `tea.Quit` via Enter is recorded in a `done` flag
(terminal `Selected` state); `cancelled` mirrors the Go field.  The host
processes no further events once the program has quit, so `Update` is the
identity on terminal states.

Events are the input alphabet the `Update` switch dispatches on:
arrow keys, Enter, Esc/Ctrl-C, and a change of the text-input value
(typed runes); arrow keys and Enter leave the text-input value unchanged.
-/

namespace tui

open fuzzy

/-- The event alphabet of the pickers' `Update` functions. -/
inductive Event where
  | moveUp
  | moveDown
  | confirm
  | cancel
  | textChanged (q : String)
deriving Repr, DecidableEq

/-- `tui.BranchEntry`: a branch in the branch selector. -/
structure BranchEntry where
  Name : String
  Source : String
  HasWorktree : Bool
deriving Repr, DecidableEq, Inhabited

/-- `tui.filteredBranchEntry`: a `BranchEntry` with its fuzzy match
result (the Go field `match` is a Lean keyword, embedded as
`matchResult`). -/
structure filteredBranchEntry where
  entry : BranchEntry
  matchResult : Match
deriving Repr, DecidableEq, Inhabited

/-- The descending-score ordering used by `sort.Slice(m.filtered, ...)`
in `branchModel.Update`: `a` may come before `b` when `a`'s score is at
least `b`'s. -/
def branchScoreGE (a b : filteredBranchEntry) : Prop :=
  b.matchResult.score ≤ a.matchResult.score

instance : DecidableRel branchScoreGE := fun _ _ => Int.decLe _ _

instance : IsTotal filteredBranchEntry branchScoreGE :=
  ⟨fun a b => Int.le_total b.matchResult.score a.matchResult.score⟩

instance : IsTrans filteredBranchEntry branchScoreGE :=
  ⟨fun _ _ _ h1 h2 => le_trans h2 h1⟩

/-- `tui.branchModel`.  `query` is the text input's value; `done` records
that `Update` returned `tea.Quit` via Enter (terminal `Selected`). -/
structure branchModel where
  entries : List BranchEntry
  filtered : List filteredBranchEntry
  query : String
  selected : Int
  cancelled : Bool
  done : Bool
  header : String
deriving Repr, DecidableEq

/-- The loop body of `branchModel.moveSelection`, with explicit fuel (the
Go `for {}` loop advances `m.selected` one step per iteration and stops
at a bound, a selectable entry, or the start index, so any fuel of at
least `filtered.length + 1` reproduces it exactly). -/
def moveSelLoop (filtered : List filteredBranchEntry) (dir start : Int) :
    Nat → Int → Int
  | 0, sel => sel
  | fuel + 1, sel =>
    let next := sel + dir
    if next < 0 ∨ (filtered.length : Int) ≤ next then sel -- Can't move further
    else if (filtered.getD next.toNat default).entry.HasWorktree = false then
      next -- Found selectable entry
    else if next = start then next -- Wrapped around, no selectable entries
    else moveSelLoop filtered dir start fuel next

/-- `branchModel.moveSelection(dir)` acting on the `(filtered, selected)`
fields: walk from `selected` in direction `dir`. -/
def branchModel.moveSelection (filtered : List filteredBranchEntry)
    (selected dir : Int) : Int :=
  if filtered.length = 0 then selected
  else moveSelLoop filtered dir selected (filtered.length + 1) selected

/-- The filter-and-score section of `branchModel.Update`: on an empty
query the full entry list with zero matches, otherwise the matched
entries sorted by descending score (`sort.Slice` is a comparison sort;
we model it with `insertionSort`, which likewise produces a permutation
of its input ordered by `branchScoreGE`). -/
def branchComputeFiltered (entries : List BranchEntry) (query : String) :
    List filteredBranchEntry :=
  if query = "" then
    entries.map fun e => { entry := e, matchResult := Match.zero }
  else
    let kept := entries.filterMap fun e =>
      let m := Score e.Name query
      if m.matched then some { entry := e, matchResult := m } else none
    List.insertionSort branchScoreGE kept

/-- The clamp step shared by both `Update`s:
`if m.selected >= len(m.filtered) { m.selected = max(0, len(m.filtered)-1) }`. -/
def clampSel (n : Nat) (sel : Int) : Int :=
  if (n : Int) ≤ sel then max 0 ((n : Int) - 1) else sel

/-- The disabled-entry fix-up at the end of `branchModel.Update`:
`if len(m.filtered) > 0 && m.filtered[m.selected].HasWorktree {
m.moveSelection(1) }`. -/
def fixSel (fl : List filteredBranchEntry) (sel : Int) : Int :=
  if 0 < fl.length ∧ (fl.getD sel.toNat default).entry.HasWorktree then
    branchModel.moveSelection fl sel 1 -- Try down first
  else sel

/-- The tail of `branchModel.Update` run on every non-returning path:
re-filter against the current query, clamp the selection, then skip to
the nearest selectable entry (downward) if the current one is disabled. -/
def branchModel.filterAndFix (m : branchModel) : branchModel :=
  { m with
    filtered := branchComputeFiltered m.entries m.query,
    selected := fixSel (branchComputeFiltered m.entries m.query)
      (clampSel (branchComputeFiltered m.entries m.query).length m.selected) }

/-- `branchModel.Update`.  Esc/Ctrl-C and a successful Enter return
immediately (`tea.Quit`); every other path falls through to the
filter/clamp/fix-up tail with the (unchanged or updated) query. -/
def branchModel.Update (m : branchModel) (ev : Event) : branchModel :=
  if m.cancelled || m.done then m
  else
    match ev with
    | .cancel => { m with cancelled := true }
    | .confirm =>
      if 0 < m.filtered.length ∧
          (m.filtered.getD m.selected.toNat default).entry.HasWorktree = false then
        { m with done := true }
      else
        branchModel.filterAndFix m
    | .moveUp =>
      branchModel.filterAndFix
        { m with selected := branchModel.moveSelection m.filtered m.selected (-1) }
    | .moveDown =>
      branchModel.filterAndFix
        { m with selected := branchModel.moveSelection m.filtered m.selected 1 }
    | .textChanged q =>
      branchModel.filterAndFix { m with query := q }

/-- `tui.newBranchModel`: initial filtered list is the full entry list;
the cursor starts on the first selectable entry (0 when none is). -/
def newBranchModel (entries : List BranchEntry) (header : String) : branchModel :=
  let filtered := entries.map fun e =>
    ({ entry := e, matchResult := Match.zero } : filteredBranchEntry)
  -- Start selection on first selectable entry
  let i := filtered.findIdx fun fe => !fe.entry.HasWorktree
  let startIdx := if i = filtered.length then 0 else i
  { entries := entries, filtered := filtered, query := "",
    selected := (startIdx : Int), cancelled := false, done := false,
    header := header }

/-- `tui.Entry`: a worktree entry in the plain selector. -/
structure Entry where
  Branch : String
  Path : String
  Rel : String
  IsMain : Bool
deriving Repr, DecidableEq, Inhabited

/-- `tui.filteredEntry`: an `Entry` with its fuzzy match result. -/
structure filteredEntry where
  entry : Entry
  matchResult : Match
deriving Repr, DecidableEq, Inhabited

/-- The descending-score ordering used by `sort.Slice` in `model.Update`. -/
def wtScoreGE (a b : filteredEntry) : Prop :=
  b.matchResult.score ≤ a.matchResult.score

instance : DecidableRel wtScoreGE := fun _ _ => Int.decLe _ _

instance : IsTotal filteredEntry wtScoreGE :=
  ⟨fun a b => Int.le_total b.matchResult.score a.matchResult.score⟩

instance : IsTrans filteredEntry wtScoreGE :=
  ⟨fun _ _ _ h1 h2 => le_trans h2 h1⟩

/-- `tui.model`, the plain worktree picker. -/
structure model where
  entries : List Entry
  filtered : List filteredEntry
  query : String
  selected : Int
  cancelled : Bool
  done : Bool
deriving Repr, DecidableEq

/-- The filter-and-score section of `model.Update`. -/
def wtComputeFiltered (entries : List Entry) (query : String) :
    List filteredEntry :=
  if query = "" then
    entries.map fun e => { entry := e, matchResult := Match.zero }
  else
    let kept := entries.filterMap fun e =>
      let m := Score e.Branch query
      if m.matched then some { entry := e, matchResult := m } else none
    -- Sort by descending score
    List.insertionSort wtScoreGE kept

/-- The tail of `model.Update`: re-filter and clamp (no disabled-entry
fix-up in the plain picker). -/
def model.filterAndClamp (m : model) : model :=
  { m with
    filtered := wtComputeFiltered m.entries m.query,
    selected := clampSel (wtComputeFiltered m.entries m.query).length m.selected }

/-- `model.Update`: single-step clamped cursor movement, Enter quits on
any non-empty filtered list, Esc/Ctrl-C cancels. -/
def model.Update (m : model) (ev : Event) : model :=
  if m.cancelled || m.done then m
  else
    match ev with
    | .cancel => { m with cancelled := true }
    | .confirm =>
      if 0 < m.filtered.length then { m with done := true }
      else model.filterAndClamp m
    | .moveUp =>
      model.filterAndClamp
        (if 0 < m.selected then { m with selected := m.selected - 1 } else m)
    | .moveDown =>
      model.filterAndClamp
        (if m.selected < (m.filtered.length : Int) - 1 then
          { m with selected := m.selected + 1 }
        else m)
    | .textChanged q =>
      model.filterAndClamp { m with query := q }

/-- `tui.newModel`: initial filtered list is the full entry list with no
scoring; the cursor starts at 0. -/
def newModel (entries : List Entry) : model :=
  let filtered := entries.map fun e =>
    ({ entry := e, matchResult := Match.zero } : filteredEntry)
  { entries := entries, filtered := filtered, query := "",
    selected := 0, cancelled := false, done := false }

/-! ### Statement-side predicates -/

/-- The entry of `fl` at (integer) index `i` carries the non-selectable
flag (`HasWorktree`). -/
def disabledAt (fl : List filteredBranchEntry) (i : Int) : Bool :=
  (fl.getD i.toNat default).entry.HasWorktree

/-- The cursor is within `[0, max 0 (length - 1)]` — the bounds `Update`
maintains. -/
def branchModel.InBounds (m : branchModel) : Prop :=
  0 ≤ m.selected ∧ m.selected ≤ max 0 ((m.filtered.length : Int) - 1)

/-- The filtered view is the one computed from the current entries and
query — true of every state `Update` or `newBranchModel` produces. -/
def branchModel.Consistent (m : branchModel) : Prop :=
  m.filtered = branchComputeFiltered m.entries m.query

/-- On a non-empty filtered list, the cursor rests on a selectable entry
or on the last entry (the one place the fix-up can leave it disabled). -/
def branchModel.CursorOk (m : branchModel) : Prop :=
  0 < m.filtered.length →
    (disabledAt m.filtered m.selected = false ∨
      m.selected = (m.filtered.length : Int) - 1)

/-- Cursor bounds for the plain picker. -/
def model.InBounds (m : model) : Prop :=
  0 ≤ m.selected ∧ m.selected ≤ max 0 ((m.filtered.length : Int) - 1)

end tui

end Wt

namespace Wt

/-! ## Invariants of the scanning loop -/

namespace fuzzy

/-- Invariants of `scanLoop`: the final pattern cursor stays within
`[pi, pat.length]`, each matched pattern rune records exactly one
position, all recorded positions are below `si + strL.length`, and the
position list is strictly increasing. -/
theorem scanLoop_spec (pat orig : List Char) :
    ∀ (strL : List Char) (si pi : Nat) (prev score : Int) (pos : List Nat),
      pi ≤ pat.length →
      (∀ x ∈ pos, x < si) →
      pos.Pairwise (· < ·) →
      (scanLoop pat orig strL si pi prev score pos).2.2 ≤ pat.length ∧
      pi ≤ (scanLoop pat orig strL si pi prev score pos).2.2 ∧
      (scanLoop pat orig strL si pi prev score pos).2.1.length
        = pos.length + ((scanLoop pat orig strL si pi prev score pos).2.2 - pi) ∧
      (∀ x ∈ (scanLoop pat orig strL si pi prev score pos).2.1,
        x < si + strL.length) ∧
      (scanLoop pat orig strL si pi prev score pos).2.1.Pairwise (· < ·) := by
  intro strL
  induction strL with
  | nil =>
    intro si pi prev score pos hpi hlt hpw
    refine ⟨hpi, Nat.le_refl _, by simp [scanLoop], ?_, by simpa [scanLoop] using hpw⟩
    intro x hx
    simp only [scanLoop] at hx
    simpa using hlt x hx
  | cons c rest ih =>
    intro si pi prev score pos hpi hlt hpw
    by_cases h1 : pi < pat.length
    · by_cases h2 : c = pat[pi]
      · have hlt' : ∀ x ∈ pos ++ [si], x < si + 1 := by
          intro x hx
          rcases List.mem_append.1 hx with hx | hx
          · exact Nat.lt_succ_of_lt (hlt x hx)
          · simp only [List.mem_singleton] at hx
            omega
        have hpw' : (pos ++ [si]).Pairwise (· < ·) := by
          refine List.pairwise_append.2 ⟨hpw, List.pairwise_singleton _ _, ?_⟩
          intro a ha b hb
          simp only [List.mem_singleton] at hb
          subst hb
          exact hlt a ha
        obtain ⟨A, B, C, D, E⟩ :=
          ih (si + 1) (pi + 1) (si : Int) (matchDelta orig si pi prev score)
            (pos ++ [si]) h1 hlt' hpw'
        have heq : scanLoop pat orig (c :: rest) si pi prev score pos
            = scanLoop pat orig rest (si + 1) (pi + 1) (si : Int)
                (matchDelta orig si pi prev score) (pos ++ [si]) := by
          simp [scanLoop, h1, h2]
        rw [heq]
        refine ⟨A, Nat.le_trans (Nat.le_succ pi) B, ?_, ?_, E⟩
        · have : (pos ++ [si]).length = pos.length + 1 := by simp
          omega
        · intro x hx
          have := D x hx
          simpa [Nat.add_assoc, Nat.add_comm 1 rest.length] using this
      · have hlt' : ∀ x ∈ pos, x < si + 1 := fun x hx => Nat.lt_succ_of_lt (hlt x hx)
        obtain ⟨A, B, C, D, E⟩ := ih (si + 1) pi prev score pos hpi hlt' hpw
        have heq : scanLoop pat orig (c :: rest) si pi prev score pos
            = scanLoop pat orig rest (si + 1) pi prev score pos := by
          simp [scanLoop, h1, h2]
        rw [heq]
        refine ⟨A, B, C, ?_, E⟩
        intro x hx
        have := D x hx
        simpa [Nat.add_assoc, Nat.add_comm 1 rest.length] using this
    · have heq : scanLoop pat orig (c :: rest) si pi prev score pos
          = (score, pos, pi) := by
        simp [scanLoop, h1]
      rw [heq]
      refine ⟨hpi, Nat.le_refl _, by simp, ?_, hpw⟩
      intro x hx
      exact Nat.lt_of_lt_of_le (hlt x hx) (Nat.le_add_right _ _)

/-- The scan consumes the whole pattern exactly when the not-yet-matched
part of the pattern is a (not necessarily contiguous) subsequence of the
remaining text: greedy left-to-right matching is complete. -/
theorem scanLoop_pi_complete (pat orig : List Char) :
    ∀ (strL : List Char) (si pi : Nat) (prev score : Int) (pos : List Nat),
      pi ≤ pat.length →
      ((scanLoop pat orig strL si pi prev score pos).2.2 = pat.length ↔
        (pat.drop pi).Sublist strL) := by
  intro strL
  induction strL with
  | nil =>
    intro si pi prev score pos hpi
    simp only [scanLoop, List.sublist_nil]
    constructor
    · intro h
      subst h
      simp
    · intro h
      have := congrArg List.length h
      simp only [List.length_drop, List.length_nil] at this
      omega
  | cons c rest ih =>
    intro si pi prev score pos hpi
    by_cases h1 : pi < pat.length
    · have hdrop : pat.drop pi = pat[pi] :: pat.drop (pi + 1) :=
        List.drop_eq_getElem_cons h1
      by_cases h2 : c = pat[pi]
      · have heq : scanLoop pat orig (c :: rest) si pi prev score pos
            = scanLoop pat orig rest (si + 1) (pi + 1) (si : Int)
                (matchDelta orig si pi prev score) (pos ++ [si]) := by
          simp [scanLoop, h1, h2]
        rw [heq, ih (si + 1) (pi + 1) (si : Int) (matchDelta orig si pi prev score)
          (pos ++ [si]) h1, hdrop, ← h2, List.cons_sublist_cons]
      · have heq : scanLoop pat orig (c :: rest) si pi prev score pos
            = scanLoop pat orig rest (si + 1) pi prev score pos := by
          simp [scanLoop, h1, h2]
        rw [heq, ih (si + 1) pi prev score pos hpi]
        constructor
        · intro h
          exact h.cons c
        · intro h
          rcases List.sublist_cons_iff.1 h with h | ⟨r, hr, hsub⟩
          · exact h
          · rw [hdrop] at hr
            injection hr with h3 h4
            exact absurd h3.symm h2
    · have hpil : pi = pat.length := Nat.le_antisymm hpi (Nat.le_of_not_lt h1)
      have heq : scanLoop pat orig (c :: rest) si pi prev score pos
          = (score, pos, pi) := by
        simp [scanLoop, h1]
      rw [heq]
      subst hpil
      simp

/-- `toLower` acts on the rune sequence as a rune-wise map. -/
theorem toList_toLower (s : String) :
    (toLower s).toList = s.toList.map toLowerRune := rfl

/-- A string is empty exactly when its rune sequence is. -/
theorem toList_eq_nil_iff (s : String) : s.toList = [] ↔ s = "" := by
  constructor
  · intro h
    obtain ⟨data⟩ := s
    simp only [String.toList] at h
    subst h
    rfl
  · intro h
    rw [h]
    rfl

/-- On any failing branch, `ScoreList` returns the zero verdict. -/
theorem ScoreList_eq_of_not_matched (s p o : List Char)
    (h : (ScoreList s p o).matched = false) : ScoreList s p o = ⟨0, false, []⟩ := by
  unfold ScoreList at h ⊢
  by_cases h1 : s.length < p.length
  · rw [if_pos h1]
  · rw [if_neg h1] at h ⊢
    by_cases h2 : (scanLoop p o s 0 0 (-1) 0 []).2.2 < p.length
    · rw [if_pos h2]
    · rw [if_neg h2] at h
      simp at h

/-- On a successful scan, `ScoreList` records one strictly increasing
in-bounds position per pattern rune. -/
theorem ScoreList_matched_wf (s p o : List Char)
    (h : (ScoreList s p o).matched = true) :
    (ScoreList s p o).positions.length = p.length ∧
      (ScoreList s p o).positions.Pairwise (· < ·) ∧
      ∀ x ∈ (ScoreList s p o).positions, x < s.length := by
  obtain ⟨A, B, C, D, E⟩ :=
    scanLoop_spec p o s 0 0 (-1) 0 [] (Nat.zero_le _) (by simp) List.Pairwise.nil
  unfold ScoreList at h ⊢
  by_cases h1 : s.length < p.length
  · rw [if_pos h1] at h
    simp at h
  · rw [if_neg h1] at h ⊢
    by_cases h2 : (scanLoop p o s 0 0 (-1) 0 []).2.2 < p.length
    · rw [if_pos h2] at h
      simp at h
    · rw [if_neg h2] at h ⊢
      refine ⟨?_, E, ?_⟩
      · show (scanLoop p o s 0 0 (-1) 0 []).2.1.length = p.length
        simp only [List.length_nil, Nat.zero_add, Nat.sub_zero] at C
        omega
      · intro x hx
        have hx' : x ∈ (scanLoop p o s 0 0 (-1) 0 []).2.1 := hx
        have := D x hx'
        omega

/-- `ScoreList`'s verdict is exactly subsequence containment of the
pattern runes in the text runes. -/
theorem ScoreList_matched_iff_sublist (s p o : List Char) :
    (ScoreList s p o).matched = true ↔ p.Sublist s := by
  have hcompl := scanLoop_pi_complete p o s 0 0 (-1) 0 [] (Nat.zero_le _)
  obtain ⟨A, B, C, D, E⟩ :=
    scanLoop_spec p o s 0 0 (-1) 0 [] (Nat.zero_le _) (by simp) List.Pairwise.nil
  unfold ScoreList
  by_cases h1 : s.length < p.length
  · rw [if_pos h1]
    refine iff_of_false (by simp) ?_
    intro hs
    exact absurd hs.length_le (by omega)
  · rw [if_neg h1]
    by_cases h2 : (scanLoop p o s 0 0 (-1) 0 []).2.2 < p.length
    · rw [if_pos h2]
      refine iff_of_false (by simp) ?_
      intro hs
      have := hcompl.2 (by simpa using hs)
      omega
    · rw [if_neg h2]
      refine iff_of_true (by simp) ?_
      have hEq : (scanLoop p o s 0 0 (-1) 0 []).2.2 = p.length := by omega
      simpa using hcompl.1 hEq

/-- Splitting `Score` into its guards and its rune-level body. -/
theorem Score_eq_scoreList (t p : String) (hp : p ≠ "") (ht : t ≠ "") :
    Score t p = ScoreList (toLower t).toList (toLower p).toList t.toList := by
  unfold Score
  rw [if_neg hp, if_neg ht]

/-- On any failing branch, `Score` returns the zero verdict
`{score := 0, matched := false, positions := []}`. -/
theorem Score_eq_of_not_matched (t p : String)
    (h : (Score t p).matched = false) : Score t p = ⟨0, false, []⟩ := by
  by_cases hp : p = ""
  · rw [hp] at h ⊢
    unfold Score at h
    simp at h
  · by_cases ht : t = ""
    · unfold Score
      rw [if_neg hp, if_pos ht]
    · rw [Score_eq_scoreList t p hp ht] at h ⊢
      exact ScoreList_eq_of_not_matched _ _ _ h

/-- On a successful match of a non-empty pattern, the recorded positions
are one per pattern rune, strictly increasing, and within the text. -/
theorem Score_matched_wf (t p : String) (hm : (Score t p).matched = true)
    (hp : p ≠ "") :
    (Score t p).positions.length = p.toList.length ∧
      (Score t p).positions.Pairwise (· < ·) ∧
      ∀ x ∈ (Score t p).positions, x < t.toList.length := by
  by_cases ht : t = ""
  · exfalso
    unfold Score at hm
    rw [if_neg hp, if_pos ht] at hm
    simp at hm
  · rw [Score_eq_scoreList t p hp ht] at hm ⊢
    obtain ⟨A, B, C⟩ := ScoreList_matched_wf _ _ _ hm
    refine ⟨?_, B, ?_⟩
    · rw [A, toList_toLower, List.length_map]
    · intro x hx
      have := C x hx
      rwa [toList_toLower, List.length_map] at this

/-- `Score`'s verdict for a non-empty pattern is exactly subsequence
containment of the case-folded pattern in the case-folded text. -/
theorem Score_matched_iff_sublist (t p : String) (hp : p ≠ "") :
    (Score t p).matched = true ↔
      ((toLower p).toList).Sublist ((toLower t).toList) := by
  by_cases ht : t = ""
  · have hpl : (toLower p).toList ≠ [] := by
      rw [toList_toLower]
      intro h
      exact hp ((toList_eq_nil_iff p).1 (List.map_eq_nil_iff.1 h))
    refine iff_of_false ?_ ?_
    · unfold Score
      rw [if_neg hp, if_pos ht]
      simp
    · subst ht
      intro hs
      exact hpl (List.sublist_nil.1 hs)
  · rw [Score_eq_scoreList t p hp ht]
    exact ScoreList_matched_iff_sublist _ _ _

end fuzzy

/-! ## Claims C4 and C9: concrete evaluations of `Score` -/

/-- C4 (counterexample): `Score("feature-auth", "fau")` does **not**
return positions `[0, 2, 9]`: the greedy scan takes the 'u' of
"feature" at index 4, not the 'u' of "auth" at index 9. -/
theorem C4_positions_counterexample :
    ¬ (fuzzy.Score "feature-auth" "fau").positions = [0, 2, 9] := by decide

/-- C4 (amended): `Score("feature-auth", "fau")` matches with positions
exactly `[0, 2, 4]` ('f' at index 0, 'a' at index 2, 'u' at index 4
inside "feature"). -/
theorem C4_positions_amended :
    (fuzzy.Score "feature-auth" "fau").matched = true ∧
      (fuzzy.Score "feature-auth" "fau").positions = [0, 2, 4] := by decide

/-- C9: both `"a-b"` and `"a-----b"` match pattern `"ab"`, and the
larger gap yields a strictly lower score
(`Score("a-b","ab").score > Score("a-----b","ab").score`). -/
theorem C9_gap_penalty_monotone :
    (fuzzy.Score "a-b" "ab").matched = true ∧
      (fuzzy.Score "a-----b" "ab").matched = true ∧
      (fuzzy.Score "a-----b" "ab").score < (fuzzy.Score "a-b" "ab").score := by
  decide

/-! ## Claims C5 and C6: the `Score` contract -/

/-- C5: for every text `t` and non-empty pattern `p`,
`Score(t, p).Matched` is true exactly when the case-folded runes of `p`
occur, in order, as a (not necessarily contiguous) subsequence of the
case-folded runes of `t` — the greedy left-to-right scan succeeds
precisely when such a subsequence embedding exists. -/
theorem C5_matched_iff_subsequence (t p : String) (hp : p ≠ "") :
    (fuzzy.Score t p).matched = true ↔
      ((fuzzy.toLower p).toList).Sublist ((fuzzy.toLower t).toList) :=
  fuzzy.Score_matched_iff_sublist t p hp

/-- Witness for C5 at a concrete case-insensitive instance. -/
theorem C5_matched_iff_subsequence_witness :
    (("fau" : String) ≠ "") ∧
      ((fuzzy.Score "Feature-Auth" "fau").matched = true ↔
        ((fuzzy.toLower "fau").toList).Sublist
          ((fuzzy.toLower "Feature-Auth").toList)) :=
  ⟨by decide, C5_matched_iff_subsequence "Feature-Auth" "fau" (by decide)⟩

/-- C6: every `Match` returned by `Score` is well-formed: on a failed
match the score is 0 and the positions are empty; on a successful match
of a non-empty pattern there is exactly one position per pattern rune,
strictly increasing, and each lies within `[0, len t)` (positions are
natural numbers, so `0 ≤ x` holds by type). -/
theorem C6_match_wellformed (t p : String) :
    ((fuzzy.Score t p).matched = false →
      (fuzzy.Score t p).score = 0 ∧ (fuzzy.Score t p).positions = []) ∧
    ((fuzzy.Score t p).matched = true → p ≠ "" →
      (fuzzy.Score t p).positions.length = p.toList.length ∧
        (fuzzy.Score t p).positions.Pairwise (· < ·) ∧
        ∀ x ∈ (fuzzy.Score t p).positions, x < t.toList.length) := by
  constructor
  · intro h
    rw [fuzzy.Score_eq_of_not_matched t p h]
    exact ⟨rfl, rfl⟩
  · intro hm hp
    exact fuzzy.Score_matched_wf t p hm hp

/-- Witness for C6: a failed match and a successful match evaluated on
concrete inputs. -/
theorem C6_match_wellformed_witness :
    ((fuzzy.Score "feature-auth" "xyz").score = 0 ∧
      (fuzzy.Score "feature-auth" "xyz").positions = []) ∧
    ((fuzzy.Score "feature-auth" "fau").positions.length
        = ("fau" : String).toList.length ∧
      (fuzzy.Score "feature-auth" "fau").positions.Pairwise (· < ·) ∧
      ∀ x ∈ (fuzzy.Score "feature-auth" "fau").positions,
        x < ("feature-auth" : String).toList.length) :=
  ⟨(C6_match_wellformed "feature-auth" "xyz").1 (by decide),
   (C6_match_wellformed "feature-auth" "fau").2 (by decide) (by decide)⟩

/-! ## Claim C7: content and order of the filtered view -/

/-- C7: after a `TextChanged` event with a non-empty query, in both
pickers the filtered view consists of exactly the entries whose label
matches the query under `Score`, each paired with its `Match`
(a permutation of the match-filtered entry list), arranged in
non-increasing score order; unmatched entries are absent. -/
theorem C7_filtered_content_sorted (m : tui.branchModel) (w : tui.model)
    (q : String) (hq : q ≠ "")
    (hmc : m.cancelled = false) (hmd : m.done = false)
    (hwc : w.cancelled = false) (hwd : w.done = false) :
    ((m.Update (tui.Event.textChanged q)).filtered.Perm
        (m.entries.filterMap fun e =>
          if (fuzzy.Score e.Name q).matched then
            some ⟨e, fuzzy.Score e.Name q⟩ else none) ∧
      (m.Update (tui.Event.textChanged q)).filtered.Sorted tui.branchScoreGE) ∧
    ((w.Update (tui.Event.textChanged q)).filtered.Perm
        (w.entries.filterMap fun e =>
          if (fuzzy.Score e.Branch q).matched then
            some ⟨e, fuzzy.Score e.Branch q⟩ else none) ∧
      (w.Update (tui.Event.textChanged q)).filtered.Sorted tui.wtScoreGE) := by
  have hb : (m.Update (tui.Event.textChanged q)).filtered
      = tui.branchComputeFiltered m.entries q := by
    simp [tui.branchModel.Update, hmc, hmd, tui.branchModel.filterAndFix]
  have hw : (w.Update (tui.Event.textChanged q)).filtered
      = tui.wtComputeFiltered w.entries q := by
    simp [tui.model.Update, hwc, hwd, tui.model.filterAndClamp]
  rw [hb, hw]
  unfold tui.branchComputeFiltered tui.wtComputeFiltered
  rw [if_neg hq, if_neg hq]
  exact ⟨⟨List.perm_insertionSort _ _, List.sorted_insertionSort _ _⟩,
    ⟨List.perm_insertionSort _ _, List.sorted_insertionSort _ _⟩⟩

/-- Witness for C7 on concrete one-entry pickers. -/
theorem C7_filtered_content_sorted_witness :
    (((tui.newBranchModel [⟨"feature-a", "local", false⟩] "h").Update
        (tui.Event.textChanged "fa")).filtered.Perm
        ((tui.newBranchModel [⟨"feature-a", "local", false⟩] "h").entries.filterMap
          fun e =>
          if (fuzzy.Score e.Name "fa").matched then
            some ⟨e, fuzzy.Score e.Name "fa"⟩ else none) ∧
      ((tui.newBranchModel [⟨"feature-a", "local", false⟩] "h").Update
        (tui.Event.textChanged "fa")).filtered.Sorted tui.branchScoreGE) ∧
    (((tui.newModel [⟨"feature-a", "/tmp/a", "a", false⟩]).Update
        (tui.Event.textChanged "fa")).filtered.Perm
        ((tui.newModel [⟨"feature-a", "/tmp/a", "a", false⟩]).entries.filterMap
          fun e =>
          if (fuzzy.Score e.Branch "fa").matched then
            some ⟨e, fuzzy.Score e.Branch "fa"⟩ else none) ∧
      ((tui.newModel [⟨"feature-a", "/tmp/a", "a", false⟩]).Update
        (tui.Event.textChanged "fa")).filtered.Sorted tui.wtScoreGE) :=
  C7_filtered_content_sorted _ _ "fa" (by decide) rfl rfl rfl rfl

/-! ## Cursor bounds -/

namespace tui

/-- The walk of `moveSelection` never leaves `[0, length)` when it
starts there. -/
theorem moveSelLoop_bounds (fl : List filteredBranchEntry) (dir start : Int) :
    ∀ (fuel : Nat) (sel : Int), 0 ≤ sel → sel < (fl.length : Int) →
      0 ≤ moveSelLoop fl dir start fuel sel ∧
        moveSelLoop fl dir start fuel sel < (fl.length : Int) := by
  intro fuel
  induction fuel with
  | zero =>
    intro sel h1 h2
    simpa only [moveSelLoop] using ⟨h1, h2⟩
  | succ n ih =>
    intro sel h1 h2
    simp only [moveSelLoop]
    by_cases hb : sel + dir < 0 ∨ (fl.length : Int) ≤ sel + dir
    · rw [if_pos hb]
      exact ⟨h1, h2⟩
    · rw [if_neg hb]
      push_neg at hb
      obtain ⟨hb1, hb2⟩ := hb
      by_cases hsel : (fl.getD (sel + dir).toNat default).entry.HasWorktree = false
      · rw [if_pos hsel]
        exact ⟨hb1, hb2⟩
      · rw [if_neg hsel]
        by_cases hst : sel + dir = start
        · rw [if_pos hst]
          exact ⟨hb1, hb2⟩
        · rw [if_neg hst]
          exact ih (sel + dir) hb1 hb2

/-- `moveSelection` keeps the cursor within the clamp bounds. -/
theorem branchModel.moveSelection_bounds (fl : List filteredBranchEntry)
    (sel dir : Int) (h1 : 0 ≤ sel) (h2 : sel ≤ max 0 ((fl.length : Int) - 1)) :
    0 ≤ branchModel.moveSelection fl sel dir ∧
      branchModel.moveSelection fl sel dir ≤ max 0 ((fl.length : Int) - 1) := by
  unfold branchModel.moveSelection
  by_cases hl : fl.length = 0
  · rw [if_pos hl]
    exact ⟨h1, h2⟩
  · rw [if_neg hl]
    have hpos : 0 < fl.length := Nat.pos_of_ne_zero hl
    have hmax : max 0 ((fl.length : Int) - 1) = (fl.length : Int) - 1 :=
      max_eq_right (by omega)
    rw [hmax] at h2 ⊢
    have hb := moveSelLoop_bounds fl dir sel (fl.length + 1) sel h1 (by omega)
    omega

/-- The clamp step lands in `[0, max 0 (n - 1)]`. -/
theorem clampSel_bounds (n : Nat) (sel : Int) (h : 0 ≤ sel) :
    0 ≤ clampSel n sel ∧ clampSel n sel ≤ max 0 ((n : Int) - 1) := by
  unfold clampSel
  by_cases hc : (n : Int) ≤ sel
  · rw [if_pos hc]
    exact ⟨le_max_left _ _, le_refl _⟩
  · rw [if_neg hc]
    refine ⟨h, le_trans (by omega : sel ≤ (n : Int) - 1) (le_max_right _ _)⟩

/-- The disabled-entry fix-up keeps the cursor within the clamp bounds. -/
theorem fixSel_bounds (fl : List filteredBranchEntry) (sel : Int)
    (h1 : 0 ≤ sel) (h2 : sel ≤ max 0 ((fl.length : Int) - 1)) :
    0 ≤ fixSel fl sel ∧ fixSel fl sel ≤ max 0 ((fl.length : Int) - 1) := by
  unfold fixSel
  by_cases hc : 0 < fl.length ∧
      (fl.getD sel.toNat default).entry.HasWorktree = true
  · rw [if_pos hc]
    exact branchModel.moveSelection_bounds fl sel 1 h1 h2
  · rw [if_neg hc]
    exact ⟨h1, h2⟩

/-- `filterAndFix` restores the cursor bounds from `0 ≤ selected` alone. -/
theorem branchModel.filterAndFix_inBounds (m : branchModel)
    (h : 0 ≤ m.selected) : m.filterAndFix.InBounds := by
  have hcl := clampSel_bounds (branchComputeFiltered m.entries m.query).length
    m.selected h
  have hfx := fixSel_bounds (branchComputeFiltered m.entries m.query) _ hcl.1 hcl.2
  exact ⟨hfx.1, hfx.2⟩

/-- One step of the branch picker preserves the cursor bounds. -/
theorem branchModel.Update_inBounds (m : branchModel) (ev : Event)
    (h : m.InBounds) : (m.Update ev).InBounds := by
  unfold branchModel.Update
  by_cases ht : (m.cancelled || m.done) = true
  · rw [if_pos ht]
    exact h
  · rw [if_neg ht]
    cases ev with
    | cancel => exact h
    | confirm =>
      by_cases hq : 0 < m.filtered.length ∧
          (m.filtered.getD m.selected.toNat default).entry.HasWorktree = false
      · rw [if_pos hq]
        exact h
      · rw [if_neg hq]
        exact branchModel.filterAndFix_inBounds _ h.1
    | moveUp =>
      exact branchModel.filterAndFix_inBounds _
        (branchModel.moveSelection_bounds m.filtered m.selected (-1) h.1 h.2).1
    | moveDown =>
      exact branchModel.filterAndFix_inBounds _
        (branchModel.moveSelection_bounds m.filtered m.selected 1 h.1 h.2).1
    | textChanged q =>
      exact branchModel.filterAndFix_inBounds _ h.1

/-- The branch picker's initial cursor is in bounds. -/
theorem newBranchModel_inBounds (entries : List BranchEntry) (hdr : String) :
    (newBranchModel entries hdr).InBounds := by
  unfold newBranchModel branchModel.InBounds
  simp only []
  set fl := entries.map fun e =>
    ({ entry := e, matchResult := fuzzy.Match.zero } : filteredBranchEntry) with hfl
  have hle : fl.findIdx (fun fe => !fe.entry.HasWorktree) ≤ fl.length :=
    List.findIdx_le_length _
  by_cases hidx : fl.findIdx (fun fe => !fe.entry.HasWorktree) = fl.length
  · rw [if_pos hidx]
    have hlf : fl.length = entries.length := List.length_map _ _
    constructor
    · exact le_refl 0
    · exact le_max_left _ _
  · rw [if_neg hidx]
    have hlf : fl.length = entries.length := List.length_map _ _
    have hlt : fl.findIdx (fun fe => !fe.entry.HasWorktree) < fl.length := by
      omega
    constructor
    · exact Int.natCast_nonneg _
    · refine le_trans ?_ (le_max_right _ _)
      omega

/-- Any event sequence from the initial branch picker keeps the cursor
in bounds. -/
theorem branchModel.foldl_inBounds (evs : List Event) :
    ∀ (m : branchModel), m.InBounds →
      (evs.foldl branchModel.Update m).InBounds := by
  induction evs with
  | nil => intro m h; exact h
  | cons e rest ih =>
    intro m h
    exact ih _ (branchModel.Update_inBounds m e h)

/-- `filterAndClamp` restores the cursor bounds from `0 ≤ selected`. -/
theorem model.filterAndClamp_inBounds (m : model)
    (h : 0 ≤ m.selected) : m.filterAndClamp.InBounds := by
  have hcl := clampSel_bounds (wtComputeFiltered m.entries m.query).length
    m.selected h
  exact ⟨hcl.1, hcl.2⟩

/-- One step of the plain picker preserves the cursor bounds. -/
theorem model.Update_preserves_inBounds (m : model) (ev : Event)
    (h : m.InBounds) : (m.Update ev).InBounds := by
  unfold model.Update
  by_cases ht : (m.cancelled || m.done) = true
  · rw [if_pos ht]
    exact h
  · rw [if_neg ht]
    cases ev with
    | cancel => exact h
    | confirm =>
      by_cases hq : 0 < m.filtered.length
      · rw [if_pos hq]
        exact h
      · rw [if_neg hq]
        exact model.filterAndClamp_inBounds _ h.1
    | moveUp =>
      by_cases hm : 0 < m.selected
      · rw [if_pos hm]
        exact model.filterAndClamp_inBounds _ (by simpa using by omega : _)
      · rw [if_neg hm]
        exact model.filterAndClamp_inBounds _ h.1
    | moveDown =>
      by_cases hm : m.selected < (m.filtered.length : Int) - 1
      · rw [if_pos hm]
        have := h.1
        exact model.filterAndClamp_inBounds _ (by simpa using by omega : _)
      · rw [if_neg hm]
        exact model.filterAndClamp_inBounds _ h.1
    | textChanged q =>
      exact model.filterAndClamp_inBounds _ h.1

/-- The plain picker's initial cursor is in bounds. -/
theorem newModel_inBounds (entries : List Entry) :
    (newModel entries).InBounds :=
  ⟨le_refl 0, le_max_left _ _⟩

/-- Any event sequence from the initial plain picker keeps the cursor
in bounds. -/
theorem model.foldl_preserves_inBounds (evs : List Event) :
    ∀ (m : model), m.InBounds → (evs.foldl model.Update m).InBounds := by
  induction evs with
  | nil => intro m h; exact h
  | cons e rest ih =>
    intro m h
    exact ih _ (model.Update_preserves_inBounds m e h)

/-! ### Characterization of the cursor walk -/

/-- Downward walk (`dir = 1`): starting inside the list with everything
in `(start, sel]` disabled, the walk ends at the first selectable entry
after `start`, or at the last index of the list when no entry after
`start` is selectable — it is *not* restored to `start`. -/
theorem moveSelLoop_down_spec (fl : List filteredBranchEntry) (start : Int) :
    ∀ (fuel : Nat) (sel : Int),
      0 ≤ start → start ≤ sel → sel < (fl.length : Int) →
      (∀ j : Int, start < j → j ≤ sel → disabledAt fl j = true) →
      (fl.length : Int) - sel ≤ (fuel : Int) →
      (start ≤ moveSelLoop fl 1 start fuel sel ∧
        moveSelLoop fl 1 start fuel sel < (fl.length : Int)) ∧
      (∀ j : Int, start < j → j < moveSelLoop fl 1 start fuel sel →
        disabledAt fl j = true) ∧
      (disabledAt fl (moveSelLoop fl 1 start fuel sel) = false ∨
        (moveSelLoop fl 1 start fuel sel = (fl.length : Int) - 1 ∧
          ∀ j : Int, start < j → j < (fl.length : Int) →
            disabledAt fl j = true)) := by
  intro fuel
  induction fuel with
  | zero =>
    intro sel h0 h1 h2 hdis hfuel
    exact absurd hfuel (by omega)
  | succ n ih =>
    intro sel h0 h1 h2 hdis hfuel
    simp only [moveSelLoop]
    by_cases hb : sel + 1 < 0 ∨ (fl.length : Int) ≤ sel + 1
    · rw [if_pos hb]
      have hlast : sel = (fl.length : Int) - 1 := by omega
      refine ⟨⟨h1, h2⟩, ?_, Or.inr ⟨hlast, ?_⟩⟩
      · intro j hj1 hj2
        exact hdis j hj1 (by omega)
      · intro j hj1 hj2
        exact hdis j hj1 (by omega)
    · rw [if_neg hb]
      push_neg at hb
      obtain ⟨hb1, hb2⟩ := hb
      by_cases hsel : (fl.getD (sel + 1).toNat default).entry.HasWorktree = false
      · rw [if_pos hsel]
        refine ⟨⟨by omega, hb2⟩, ?_, Or.inl hsel⟩
        intro j hj1 hj2
        exact hdis j hj1 (by omega)
      · rw [if_neg hsel]
        have hst : ¬ sel + 1 = start := by omega
        rw [if_neg hst]
        have hdis' : ∀ j : Int, start < j → j ≤ sel + 1 → disabledAt fl j = true := by
          intro j hj1 hj2
          by_cases hj : j = sel + 1
          · subst hj
            unfold disabledAt
            exact eq_true_of_ne_false hsel
          · exact hdis j hj1 (by omega)
        exact ih (sel + 1) h0 (by omega) hb2 hdis' (by omega)

/-- Upward walk (`dir = -1`): starting inside the list with everything in
`[sel, start)` disabled, the walk ends at the last selectable entry
before `start`, or at index 0 when no entry before `start` is
selectable. -/
theorem moveSelLoop_up_spec (fl : List filteredBranchEntry) (start : Int) :
    ∀ (fuel : Nat) (sel : Int),
      0 ≤ sel → sel ≤ start → start < (fl.length : Int) →
      (∀ j : Int, sel ≤ j → j < start → disabledAt fl j = true) →
      sel + 1 ≤ (fuel : Int) →
      (0 ≤ moveSelLoop fl (-1) start fuel sel ∧
        moveSelLoop fl (-1) start fuel sel ≤ start) ∧
      ((disabledAt fl (moveSelLoop fl (-1) start fuel sel) = false ∧
          moveSelLoop fl (-1) start fuel sel < start ∧
          ∀ j : Int, moveSelLoop fl (-1) start fuel sel < j → j < start →
            disabledAt fl j = true) ∨
        (moveSelLoop fl (-1) start fuel sel = 0 ∧
          ∀ j : Int, 0 ≤ j → j < start → disabledAt fl j = true)) := by
  intro fuel
  induction fuel with
  | zero =>
    intro sel h0 h1 h2 hdis hfuel
    exact absurd hfuel (by omega)
  | succ n ih =>
    intro sel h0 h1 h2 hdis hfuel
    simp only [moveSelLoop]
    by_cases hb : sel + -1 < 0 ∨ (fl.length : Int) ≤ sel + -1
    · rw [if_pos hb]
      have hz : sel = 0 := by omega
      subst hz
      exact ⟨⟨le_refl _, h1⟩, Or.inr ⟨rfl, fun j hj1 hj2 => hdis j hj1 hj2⟩⟩
    · rw [if_neg hb]
      push_neg at hb
      obtain ⟨hb1, hb2⟩ := hb
      by_cases hsel : (fl.getD (sel + -1).toNat default).entry.HasWorktree = false
      · rw [if_pos hsel]
        refine ⟨⟨by omega, by omega⟩, Or.inl ⟨hsel, by omega, ?_⟩⟩
        intro j hj1 hj2
        exact hdis j (by omega) hj2
      · rw [if_neg hsel]
        have hst : ¬ sel + -1 = start := by omega
        rw [if_neg hst]
        have hdis' : ∀ j : Int, sel + -1 ≤ j → j < start →
            disabledAt fl j = true := by
          intro j hj1 hj2
          by_cases hj : j = sel + -1
          · subst hj
            unfold disabledAt
            exact eq_true_of_ne_false hsel
          · exact hdis j (by omega) hj2
        exact ih (sel + -1) (by omega) (by omega) h2 hdis' (by omega)

/-- `moveSelection(1)`: first selectable entry after the cursor, or the
last index when there is none. -/
theorem branchModel.moveSelection_down_spec (fl : List filteredBranchEntry)
    (sel : Int) (h0 : 0 ≤ sel) (h1 : sel < (fl.length : Int)) :
    (sel ≤ branchModel.moveSelection fl sel 1 ∧
      branchModel.moveSelection fl sel 1 < (fl.length : Int)) ∧
    (∀ j : Int, sel < j → j < branchModel.moveSelection fl sel 1 →
      disabledAt fl j = true) ∧
    (disabledAt fl (branchModel.moveSelection fl sel 1) = false ∨
      (branchModel.moveSelection fl sel 1 = (fl.length : Int) - 1 ∧
        ∀ j : Int, sel < j → j < (fl.length : Int) →
          disabledAt fl j = true)) := by
  unfold branchModel.moveSelection
  have hl : ¬ fl.length = 0 := by omega
  rw [if_neg hl]
  exact moveSelLoop_down_spec fl sel (fl.length + 1) sel h0 (le_refl _) h1
    (fun j hj1 hj2 => absurd (lt_of_lt_of_le hj1 hj2) (lt_irrefl _)) (by omega)

/-- `moveSelection(-1)`: last selectable entry before the cursor, or
index 0 when there is none. -/
theorem branchModel.moveSelection_up_spec (fl : List filteredBranchEntry)
    (sel : Int) (h0 : 0 ≤ sel) (h1 : sel < (fl.length : Int)) :
    (0 ≤ branchModel.moveSelection fl sel (-1) ∧
      branchModel.moveSelection fl sel (-1) ≤ sel) ∧
    ((disabledAt fl (branchModel.moveSelection fl sel (-1)) = false ∧
        branchModel.moveSelection fl sel (-1) < sel ∧
        ∀ j : Int, branchModel.moveSelection fl sel (-1) < j → j < sel →
          disabledAt fl j = true) ∨
      (branchModel.moveSelection fl sel (-1) = 0 ∧
        ∀ j : Int, 0 ≤ j → j < sel → disabledAt fl j = true)) := by
  unfold branchModel.moveSelection
  have hl : ¬ fl.length = 0 := by omega
  rw [if_neg hl]
  exact moveSelLoop_up_spec fl sel (fl.length + 1) sel h0 (le_refl _) h1
    (fun j hj1 hj2 => absurd (lt_of_le_of_lt hj1 hj2) (lt_irrefl _)) (by omega)

/-- Walking down from the last index does not move the cursor. -/
theorem branchModel.moveSelection_last (fl : List filteredBranchEntry)
    (h : 0 < fl.length) :
    branchModel.moveSelection fl ((fl.length : Int) - 1) 1
      = (fl.length : Int) - 1 := by
  unfold branchModel.moveSelection
  have hl : ¬ fl.length = 0 := by omega
  rw [if_neg hl]
  have : fl.length + 1 = (fl.length + 1 - 1) + 1 := by omega
  rw [this]
  simp only [moveSelLoop]
  rw [if_pos (by omega : (fl.length : Int) - 1 + 1 < 0 ∨
    (fl.length : Int) ≤ (fl.length : Int) - 1 + 1)]

/-! ### The fix-up, state consistency, and the cursor-position invariant -/

/-- The fix-up leaves a selectable cursor alone. -/
theorem fixSel_eq_of_selectable (fl : List filteredBranchEntry) (sel : Int)
    (h : disabledAt fl sel = false) : fixSel fl sel = sel := by
  unfold fixSel
  rw [if_neg]
  rintro ⟨-, hc⟩
  unfold disabledAt at h
  rw [h] at hc
  cases hc

/-- The fix-up on a disabled cursor is the full downward walk. -/
theorem fixSel_eq_of_disabled (fl : List filteredBranchEntry) (sel : Int)
    (hlen : 0 < fl.length) (h : disabledAt fl sel = true) :
    fixSel fl sel = branchModel.moveSelection fl sel 1 := by
  unfold fixSel
  unfold disabledAt at h
  rw [if_pos ⟨hlen, h⟩]

/-- `filterAndFix` always produces a consistent state. -/
theorem branchModel.filterAndFix_consistent (m : branchModel) :
    (m.filterAndFix).Consistent := rfl

/-- Every `Update` step preserves consistency. -/
theorem branchModel.Update_consistent (m : branchModel) (ev : Event)
    (h : m.Consistent) : (m.Update ev).Consistent := by
  unfold branchModel.Update
  by_cases ht : (m.cancelled || m.done) = true
  · rw [if_pos ht]
    exact h
  · rw [if_neg ht]
    cases ev with
    | cancel => exact h
    | confirm =>
      by_cases hq : 0 < m.filtered.length ∧
          (m.filtered.getD m.selected.toNat default).entry.HasWorktree = false
      · rw [if_pos hq]
        exact h
      · rw [if_neg hq]
        exact branchModel.filterAndFix_consistent _
    | moveUp => exact branchModel.filterAndFix_consistent _
    | moveDown => exact branchModel.filterAndFix_consistent _
    | textChanged q => exact branchModel.filterAndFix_consistent _

/-- The initial branch-picker state is consistent. -/
theorem newBranchModel_consistent (entries : List BranchEntry) (hdr : String) :
    (newBranchModel entries hdr).Consistent := by
  show entries.map _ = branchComputeFiltered entries ""
  unfold branchComputeFiltered
  rw [if_pos rfl]

/-- After the fix-up the cursor is selectable or at the last index. -/
theorem fixSel_cursorOk (fl : List filteredBranchEntry) (sel : Int)
    (h0 : 0 ≤ sel) (h2 : sel ≤ max 0 ((fl.length : Int) - 1))
    (hlen : 0 < fl.length) :
    disabledAt fl (fixSel fl sel) = false ∨
      fixSel fl sel = (fl.length : Int) - 1 := by
  have hmax : max 0 ((fl.length : Int) - 1) = (fl.length : Int) - 1 :=
    max_eq_right (by omega)
  have hsl : sel < (fl.length : Int) := by omega
  by_cases hd : disabledAt fl sel = false
  · rw [fixSel_eq_of_selectable fl sel hd]
    exact Or.inl hd
  · rw [fixSel_eq_of_disabled fl sel hlen (eq_true_of_ne_false hd)]
    rcases (branchModel.moveSelection_down_spec fl sel h0 hsl).2.2 with h | h
    · exact Or.inl h
    · exact Or.inr h.1

/-- `filterAndFix` establishes the cursor-position invariant. -/
theorem branchModel.filterAndFix_cursorOk (m : branchModel)
    (h : 0 ≤ m.selected) : (m.filterAndFix).CursorOk := by
  intro hlen
  have hcl := clampSel_bounds (branchComputeFiltered m.entries m.query).length
    m.selected h
  exact fixSel_cursorOk _ _ hcl.1 hcl.2 hlen

/-- Every `Update` step preserves the cursor-position invariant. -/
theorem branchModel.Update_cursorOk (m : branchModel) (ev : Event)
    (hco : m.CursorOk) (hin : m.InBounds) : (m.Update ev).CursorOk := by
  unfold branchModel.Update
  by_cases ht : (m.cancelled || m.done) = true
  · rw [if_pos ht]
    exact hco
  · rw [if_neg ht]
    cases ev with
    | cancel => exact hco
    | confirm =>
      by_cases hq : 0 < m.filtered.length ∧
          (m.filtered.getD m.selected.toNat default).entry.HasWorktree = false
      · rw [if_pos hq]
        exact hco
      · rw [if_neg hq]
        exact branchModel.filterAndFix_cursorOk _ hin.1
    | moveUp =>
      exact branchModel.filterAndFix_cursorOk _
        (branchModel.moveSelection_bounds m.filtered m.selected (-1)
          hin.1 hin.2).1
    | moveDown =>
      exact branchModel.filterAndFix_cursorOk _
        (branchModel.moveSelection_bounds m.filtered m.selected 1
          hin.1 hin.2).1
    | textChanged q =>
      exact branchModel.filterAndFix_cursorOk _ hin.1

/-- When some entry is selectable, the initial cursor rests on the first
selectable entry, so the cursor-position invariant holds initially. -/
theorem newBranchModel_cursorOk (entries : List BranchEntry) (hdr : String)
    (hsel : ∃ e ∈ entries, e.HasWorktree = false) :
    (newBranchModel entries hdr).CursorOk := by
  obtain ⟨e, he, hw⟩ := hsel
  have hmem : ({ entry := e, matchResult := fuzzy.Match.zero }
      : filteredBranchEntry) ∈ entries.map (fun e =>
        ({ entry := e, matchResult := fuzzy.Match.zero }
          : filteredBranchEntry)) :=
    List.mem_map_of_mem _ he
  have hex : ∃ fe ∈ entries.map (fun e =>
      ({ entry := e, matchResult := fuzzy.Match.zero }
        : filteredBranchEntry)), (!fe.entry.HasWorktree) = true :=
    ⟨_, hmem, by simp [hw]⟩
  have hlt := List.findIdx_lt_length_of_exists hex
  intro _
  left
  show disabledAt
    (entries.map (fun e => ({ entry := e, matchResult := fuzzy.Match.zero }
      : filteredBranchEntry)))
    (((if (entries.map (fun e =>
        ({ entry := e, matchResult := fuzzy.Match.zero }
          : filteredBranchEntry))).findIdx (fun fe => !fe.entry.HasWorktree)
        = (entries.map (fun e =>
          ({ entry := e, matchResult := fuzzy.Match.zero }
            : filteredBranchEntry))).length then 0
      else (entries.map (fun e =>
        ({ entry := e, matchResult := fuzzy.Match.zero }
          : filteredBranchEntry))).findIdx
          (fun fe => !fe.entry.HasWorktree)) : Nat) : Int) = false
  rw [if_neg (by omega)]
  have hp := List.findIdx_getElem (w := hlt)
  unfold disabledAt
  rw [Int.toNat_natCast]
  simp only [List.getD_eq_getElem?_getD, List.getElem?_eq_getElem hlt,
    Option.getD_some]
  simpa using hp

/-- The cursor-position invariant holds after any event sequence from an
invariant-respecting state. -/
theorem branchModel.foldl_cursorOk (evs : List Event) :
    ∀ m : branchModel, m.CursorOk → m.InBounds →
      (evs.foldl branchModel.Update m).CursorOk := by
  induction evs with
  | nil => intro m h _; exact h
  | cons e rest ih =>
    intro m hco hin
    exact ih _ (branchModel.Update_cursorOk m e hco hin)
      (branchModel.Update_inBounds m e hin)

/-- After a downward walk, the clamp and fix-up change nothing: the walk
already ends on a selectable entry or on the last index. -/
theorem fixSel_of_down_walk (fl : List filteredBranchEntry) (s : Int)
    (h0 : 0 ≤ s) (h1 : s < (fl.length : Int)) :
    fixSel fl (clampSel fl.length (branchModel.moveSelection fl s 1))
      = branchModel.moveSelection fl s 1 := by
  obtain ⟨⟨hr1, hr2⟩, hskip, hend⟩ := branchModel.moveSelection_down_spec fl s h0 h1
  have hclamp : clampSel fl.length (branchModel.moveSelection fl s 1)
      = branchModel.moveSelection fl s 1 := by
    unfold clampSel
    rw [if_neg (by omega)]
  rw [hclamp]
  rcases hend with h | ⟨hlast, hall⟩
  · exact fixSel_eq_of_selectable _ _ h
  · by_cases hd : disabledAt fl (branchModel.moveSelection fl s 1) = false
    · exact fixSel_eq_of_selectable _ _ hd
    · rw [fixSel_eq_of_disabled _ _ (by omega) (eq_true_of_ne_false hd), hlast,
        branchModel.moveSelection_last fl (by omega)]

/-- After an upward walk followed by the clamp and fix-up, the cursor is
on the nearest selectable entry above, or back where it started (given
the cursor-position invariant at the start). -/
theorem fixSel_of_up_walk (fl : List filteredBranchEntry) (s : Int)
    (h0 : 0 ≤ s) (h1 : s < (fl.length : Int))
    (hco : disabledAt fl s = false ∨ s = (fl.length : Int) - 1) :
    (disabledAt fl
        (fixSel fl (clampSel fl.length (branchModel.moveSelection fl s (-1))))
        = false ∧
      fixSel fl (clampSel fl.length (branchModel.moveSelection fl s (-1))) < s ∧
      ∀ j : Int,
        fixSel fl (clampSel fl.length (branchModel.moveSelection fl s (-1))) < j →
        j < s → disabledAt fl j = true) ∨
    fixSel fl (clampSel fl.length (branchModel.moveSelection fl s (-1))) = s := by
  obtain ⟨⟨hu0, hu1⟩, hcase⟩ := branchModel.moveSelection_up_spec fl s h0 h1
  have hclamp : clampSel fl.length (branchModel.moveSelection fl s (-1))
      = branchModel.moveSelection fl s (-1) := by
    unfold clampSel
    rw [if_neg (by omega)]
  rw [hclamp]
  rcases hcase with ⟨husel, hults, hbetween⟩ | ⟨hu0eq, hallbelow⟩
  · rw [fixSel_eq_of_selectable _ _ husel]
    exact Or.inl ⟨husel, hults, hbetween⟩
  · rw [hu0eq]
    by_cases hs0 : s = 0
    · subst hs0
      by_cases hd : disabledAt fl 0 = false
      · rw [fixSel_eq_of_selectable _ _ hd]
        exact Or.inr rfl
      · rcases hco with hco | hco
        · exact absurd hco hd
        · rw [fixSel_eq_of_disabled _ _ (by omega) (eq_true_of_ne_false hd)]
          right
          have h00 : (0 : Int) = (fl.length : Int) - 1 := hco
          rw [h00, branchModel.moveSelection_last fl (by omega)]
    · have hspos : 0 < s := by omega
      have hd0 : disabledAt fl 0 = true := hallbelow 0 (le_refl _) hspos
      rw [fixSel_eq_of_disabled _ _ (by omega) hd0]
      right
      obtain ⟨⟨hd0b, hd1b⟩, hdskip, hdend⟩ :=
        branchModel.moveSelection_down_spec fl 0 (le_refl _) (by omega)
      rcases hco with hselOk | hlastOk
      · rcases hdend with hdsel | ⟨hdlast, hdall⟩
        · -- the first selectable entry after 0 is s itself
          by_cases hlt : branchModel.moveSelection fl 0 1 < s
          · exact absurd (hallbelow _ hd0b hlt) (by rw [hdsel]; intro h; cases h)
          · by_cases hgt : s < branchModel.moveSelection fl 0 1
            · exact absurd (hdskip s hspos hgt) (by rw [hselOk]; intro h; cases h)
            · omega
        · exact absurd (hdall s hspos h1) (by rw [hselOk]; intro h; cases h)
      · rcases hdend with hdsel | ⟨hdlast, hdall⟩
        · by_cases hlt : branchModel.moveSelection fl 0 1 < s
          · exact absurd (hallbelow _ hd0b hlt) (by rw [hdsel]; intro h; cases h)
          · omega
        · omega

/-- Unfolding the two navigation events on a consistent `Active` state:
the filtered list is unchanged and the new cursor is the walk result
followed by clamp and fix-up. -/
theorem branchModel.Update_move_eq (m : branchModel) (hc : m.Consistent)
    (hca : m.cancelled = false) (hdo : m.done = false) :
    (m.Update Event.moveDown).filtered = m.filtered ∧
    (m.Update Event.moveUp).filtered = m.filtered ∧
    (m.Update Event.moveDown).selected
      = fixSel m.filtered (clampSel m.filtered.length
          (branchModel.moveSelection m.filtered m.selected 1)) ∧
    (m.Update Event.moveUp).selected
      = fixSel m.filtered (clampSel m.filtered.length
          (branchModel.moveSelection m.filtered m.selected (-1))) := by
  obtain ⟨ent, fl, q, sel, ca, dn, hdr⟩ := m
  simp only at hca hdo
  unfold branchModel.Consistent at hc
  simp only at hc
  subst hca
  subst hdo
  unfold branchModel.Update branchModel.filterAndFix
  simp only [Bool.or_self]
  rw [← hc]
  exact ⟨rfl, rfl, rfl, rfl⟩

/-- Unfolding a `TextChanged` event on an `Active` state: the filtered
list is recomputed for the new query and the cursor is clamped then
fixed up. -/
theorem branchModel.Update_textChanged_eq (m : branchModel) (q : String)
    (hca : m.cancelled = false) (hdo : m.done = false) :
    (m.Update (Event.textChanged q)).filtered
      = branchComputeFiltered m.entries q ∧
    (m.Update (Event.textChanged q)).selected
      = fixSel (branchComputeFiltered m.entries q)
          (clampSel (branchComputeFiltered m.entries q).length m.selected) := by
  obtain ⟨ent, fl, qq, sel, ca, dn, hdr⟩ := m
  simp only at hca hdo
  subst hca
  subst hdo
  unfold branchModel.Update branchModel.filterAndFix
  simp only [Bool.or_self]
  exact ⟨rfl, rfl⟩

/-- Unfolding a `Confirm` event on an `Active` state: quit when the
filtered list is non-empty and the cursor entry is selectable, otherwise
fall through to the filter/clamp/fix-up tail. -/
theorem branchModel.Update_confirm_eq (m : branchModel)
    (hca : m.cancelled = false) (hdo : m.done = false) :
    ((0 < m.filtered.length ∧
        (m.filtered.getD m.selected.toNat default).entry.HasWorktree = false) →
      m.Update Event.confirm = { m with done := true }) ∧
    (¬(0 < m.filtered.length ∧
        (m.filtered.getD m.selected.toNat default).entry.HasWorktree = false) →
      m.Update Event.confirm = m.filterAndFix) := by
  obtain ⟨ent, fl, q, sel, ca, dn, hdr⟩ := m
  simp only at hca hdo
  subst hca
  subst hdo
  unfold branchModel.Update
  simp only [Bool.or_self]
  constructor
  · intro h
    rw [if_pos h]
    rfl
  · intro h
    rw [if_neg h]
    rfl

/-- `filterAndFix` is the identity on a consistent state whose cursor the
clamp and fix-up do not move. -/
theorem branchModel.filterAndFix_eq_self (m : branchModel) (hc : m.Consistent)
    (hsel : fixSel m.filtered (clampSel m.filtered.length m.selected)
      = m.selected) : m.filterAndFix = m := by
  obtain ⟨ent, fl, q, sel, ca, dn, hdr⟩ := m
  unfold branchModel.Consistent at hc
  simp only at hc hsel
  unfold branchModel.filterAndFix
  simp only
  rw [← hc, hsel]

/-- Of all events, only `Confirm` can set the `done` flag (reach the
terminal `Selected` state) from an `Active` state. -/
theorem branchModel.Update_done_confirm (m : branchModel) (ev : Event)
    (hca : m.cancelled = false) (hdo : m.done = false)
    (h : (m.Update ev).done = true) : ev = Event.confirm := by
  obtain ⟨ent, fl, q, sel, ca, dn, hdr⟩ := m
  simp only at hca hdo
  subst hca
  subst hdo
  unfold branchModel.Update branchModel.filterAndFix at h
  simp only [Bool.or_self] at h
  cases ev with
  | confirm => rfl
  | cancel => simp at h
  | moveUp => simp at h
  | moveDown => simp at h
  | textChanged q => simp at h

end tui

/-! ## Claim C1: where the cursor can rest after navigation -/

/-- C1 (counterexample): with entries `[selectable, disabled]` — which
contain a selectable entry — a single `MoveDown` event with the query
still empty leaves the cursor on the non-selectable entry at index 1. -/
theorem C1_counterexample :
    (∃ e ∈ ([⟨"a", "local", false⟩, ⟨"b", "local", true⟩]
        : List tui.BranchEntry), e.HasWorktree = false) ∧
    (∀ ev ∈ [tui.Event.moveDown],
      ev = tui.Event.moveUp ∨ ev = tui.Event.moveDown) ∧
    tui.disabledAt
      ([tui.Event.moveDown].foldl tui.branchModel.Update
        (tui.newBranchModel [⟨"a", "local", false⟩, ⟨"b", "local", true⟩]
          "h")).filtered
      ([tui.Event.moveDown].foldl tui.branchModel.Update
        (tui.newBranchModel [⟨"a", "local", false⟩, ⟨"b", "local", true⟩]
          "h")).selected = true := by decide

/-- C1 (amended): for every entry list containing a selectable entry,
after any sequence of `MoveUp`/`MoveDown` events the cursor is either on
a selectable entry of the filtered list or on its *last* entry — the one
place a dead-ended downward walk can leave it on a disabled entry. -/
theorem C1_cursor_selectable_or_last (entries : List tui.BranchEntry)
    (hdr : String) (evs : List tui.Event)
    (hsel : ∃ e ∈ entries, e.HasWorktree = false)
    (_hmoves : ∀ ev ∈ evs, ev = tui.Event.moveUp ∨ ev = tui.Event.moveDown) :
    0 < (evs.foldl tui.branchModel.Update
        (tui.newBranchModel entries hdr)).filtered.length →
      (tui.disabledAt
          (evs.foldl tui.branchModel.Update
            (tui.newBranchModel entries hdr)).filtered
          (evs.foldl tui.branchModel.Update
            (tui.newBranchModel entries hdr)).selected = false ∨
        (evs.foldl tui.branchModel.Update
            (tui.newBranchModel entries hdr)).selected
          = ((evs.foldl tui.branchModel.Update
              (tui.newBranchModel entries hdr)).filtered.length : Int) - 1) :=
  tui.branchModel.foldl_cursorOk evs _
    (tui.newBranchModel_cursorOk entries hdr hsel)
    (tui.newBranchModel_inBounds entries hdr)

/-- Witness for C1 (amended) on the spec's §8 scenario. -/
theorem C1_cursor_selectable_or_last_witness :
    (tui.disabledAt
          ([tui.Event.moveDown, tui.Event.moveDown].foldl
            tui.branchModel.Update
            (tui.newBranchModel [⟨"main", "local", true⟩,
              ⟨"feature-a", "local", false⟩, ⟨"feature-b", "local", false⟩]
              "h")).filtered
          ([tui.Event.moveDown, tui.Event.moveDown].foldl
            tui.branchModel.Update
            (tui.newBranchModel [⟨"main", "local", true⟩,
              ⟨"feature-a", "local", false⟩, ⟨"feature-b", "local", false⟩]
              "h")).selected = false ∨
        ([tui.Event.moveDown, tui.Event.moveDown].foldl
            tui.branchModel.Update
            (tui.newBranchModel [⟨"main", "local", true⟩,
              ⟨"feature-a", "local", false⟩, ⟨"feature-b", "local", false⟩]
              "h")).selected
          = (([tui.Event.moveDown, tui.Event.moveDown].foldl
              tui.branchModel.Update
              (tui.newBranchModel [⟨"main", "local", true⟩,
                ⟨"feature-a", "local", false⟩, ⟨"feature-b", "local", false⟩]
                "h")).filtered.length : Int) - 1) :=
  C1_cursor_selectable_or_last
    [⟨"main", "local", true⟩, ⟨"feature-a", "local", false⟩,
      ⟨"feature-b", "local", false⟩] "h"
    [tui.Event.moveDown, tui.Event.moveDown]
    (by decide) (by decide) (by decide)

/-! ## Claim C2: what a navigation event does -/

/-- C2 (counterexample): entries `[selectable, disabled]`; `MoveDown`
reaches the lower boundary without finding a selectable entry, yet the
cursor does NOT stay where it was: it moves from 0 to the disabled
entry at index 1. -/
theorem C2_counterexample :
    ((tui.newBranchModel [⟨"a", "local", false⟩, ⟨"b", "local", true⟩]
        "h").Update tui.Event.moveDown).selected
      ≠ (tui.newBranchModel [⟨"a", "local", false⟩, ⟨"b", "local", true⟩]
        "h").selected ∧
    tui.disabledAt
      ((tui.newBranchModel [⟨"a", "local", false⟩, ⟨"b", "local", true⟩]
        "h").Update tui.Event.moveDown).filtered
      ((tui.newBranchModel [⟨"a", "local", false⟩, ⟨"b", "local", true⟩]
        "h").Update tui.Event.moveDown).selected = true := by decide

/-- C2 (amended): on every consistent, in-bounds `Active` state with the
cursor-position invariant and a non-empty filtered list, a `MoveUp` or
`MoveDown` event walks the cursor in the requested direction, skipping
only non-selectable entries, until a selectable entry is found or a
boundary is reached (no wraparound).  On a dead end, `MoveUp` leaves the
cursor at its pre-event index, but `MoveDown` leaves it on the *last*
entry of the list (possibly non-selectable) instead of restoring it. -/
theorem C2_move_walk (m : tui.branchModel)
    (hc : m.Consistent) (hca : m.cancelled = false) (hdo : m.done = false)
    (hlen : 0 < m.filtered.length) (hin : m.InBounds) (hco : m.CursorOk) :
    ((m.Update tui.Event.moveDown).filtered = m.filtered ∧
      (m.Update tui.Event.moveUp).filtered = m.filtered) ∧
    (m.selected ≤ (m.Update tui.Event.moveDown).selected ∧
      (m.Update tui.Event.moveDown).selected < (m.filtered.length : Int) ∧
      (∀ j : Int, m.selected < j →
        j < (m.Update tui.Event.moveDown).selected →
        tui.disabledAt m.filtered j = true) ∧
      (tui.disabledAt m.filtered
          (m.Update tui.Event.moveDown).selected = false ∨
        ((m.Update tui.Event.moveDown).selected
            = (m.filtered.length : Int) - 1 ∧
          ∀ j : Int, m.selected < j → j < (m.filtered.length : Int) →
            tui.disabledAt m.filtered j = true))) ∧
    ((tui.disabledAt m.filtered
          (m.Update tui.Event.moveUp).selected = false ∧
        (m.Update tui.Event.moveUp).selected < m.selected ∧
        ∀ j : Int, (m.Update tui.Event.moveUp).selected < j →
          j < m.selected → tui.disabledAt m.filtered j = true) ∨
      (m.Update tui.Event.moveUp).selected = m.selected) := by
  have hs0 : 0 ≤ m.selected := hin.1
  have hmax : max 0 ((m.filtered.length : Int) - 1)
      = (m.filtered.length : Int) - 1 := max_eq_right (by omega)
  have hsl : m.selected < (m.filtered.length : Int) := by
    have := hin.2
    omega
  obtain ⟨hf1, hf2, hsel1, hsel2⟩ := tui.branchModel.Update_move_eq m hc hca hdo
  refine ⟨⟨hf1, hf2⟩, ?_, ?_⟩
  · rw [hsel1, tui.fixSel_of_down_walk m.filtered m.selected hs0 hsl]
    exact ⟨(tui.branchModel.moveSelection_down_spec m.filtered m.selected
        hs0 hsl).1.1,
      (tui.branchModel.moveSelection_down_spec m.filtered m.selected
        hs0 hsl).1.2,
      (tui.branchModel.moveSelection_down_spec m.filtered m.selected
        hs0 hsl).2.1,
      (tui.branchModel.moveSelection_down_spec m.filtered m.selected
        hs0 hsl).2.2⟩
  · rw [hsel2]
    exact tui.fixSel_of_up_walk m.filtered m.selected hs0 hsl (hco hlen)

/-- Witness for C2 (amended) on the spec's §8 scenario state. -/
theorem C2_move_walk_witness :
    (((tui.newBranchModel [⟨"main", "local", true⟩,
          ⟨"feature-a", "local", false⟩, ⟨"feature-b", "local", false⟩]
        "h").Update tui.Event.moveDown).filtered
        = (tui.newBranchModel [⟨"main", "local", true⟩,
            ⟨"feature-a", "local", false⟩, ⟨"feature-b", "local", false⟩]
          "h").filtered ∧
      ((tui.newBranchModel [⟨"main", "local", true⟩,
          ⟨"feature-a", "local", false⟩, ⟨"feature-b", "local", false⟩]
        "h").Update tui.Event.moveUp).filtered
        = (tui.newBranchModel [⟨"main", "local", true⟩,
            ⟨"feature-a", "local", false⟩, ⟨"feature-b", "local", false⟩]
          "h").filtered) ∧
    ((tui.newBranchModel [⟨"main", "local", true⟩,
        ⟨"feature-a", "local", false⟩, ⟨"feature-b", "local", false⟩]
      "h").selected
        ≤ ((tui.newBranchModel [⟨"main", "local", true⟩,
            ⟨"feature-a", "local", false⟩, ⟨"feature-b", "local", false⟩]
          "h").Update tui.Event.moveDown).selected ∧
      ((tui.newBranchModel [⟨"main", "local", true⟩,
          ⟨"feature-a", "local", false⟩, ⟨"feature-b", "local", false⟩]
        "h").Update tui.Event.moveDown).selected
        < ((tui.newBranchModel [⟨"main", "local", true⟩,
            ⟨"feature-a", "local", false⟩, ⟨"feature-b", "local", false⟩]
          "h").filtered.length : Int) ∧
      (∀ j : Int, (tui.newBranchModel [⟨"main", "local", true⟩,
          ⟨"feature-a", "local", false⟩, ⟨"feature-b", "local", false⟩]
        "h").selected < j →
        j < ((tui.newBranchModel [⟨"main", "local", true⟩,
            ⟨"feature-a", "local", false⟩, ⟨"feature-b", "local", false⟩]
          "h").Update tui.Event.moveDown).selected →
        tui.disabledAt (tui.newBranchModel [⟨"main", "local", true⟩,
            ⟨"feature-a", "local", false⟩, ⟨"feature-b", "local", false⟩]
          "h").filtered j = true) ∧
      (tui.disabledAt (tui.newBranchModel [⟨"main", "local", true⟩,
            ⟨"feature-a", "local", false⟩, ⟨"feature-b", "local", false⟩]
          "h").filtered
          ((tui.newBranchModel [⟨"main", "local", true⟩,
              ⟨"feature-a", "local", false⟩, ⟨"feature-b", "local", false⟩]
            "h").Update tui.Event.moveDown).selected = false ∨
        (((tui.newBranchModel [⟨"main", "local", true⟩,
              ⟨"feature-a", "local", false⟩, ⟨"feature-b", "local", false⟩]
            "h").Update tui.Event.moveDown).selected
            = ((tui.newBranchModel [⟨"main", "local", true⟩,
                ⟨"feature-a", "local", false⟩, ⟨"feature-b", "local", false⟩]
              "h").filtered.length : Int) - 1 ∧
          ∀ j : Int, (tui.newBranchModel [⟨"main", "local", true⟩,
              ⟨"feature-a", "local", false⟩, ⟨"feature-b", "local", false⟩]
            "h").selected < j →
            j < ((tui.newBranchModel [⟨"main", "local", true⟩,
                ⟨"feature-a", "local", false⟩, ⟨"feature-b", "local", false⟩]
              "h").filtered.length : Int) →
            tui.disabledAt (tui.newBranchModel [⟨"main", "local", true⟩,
                ⟨"feature-a", "local", false⟩, ⟨"feature-b", "local", false⟩]
              "h").filtered j = true))) ∧
    ((tui.disabledAt (tui.newBranchModel [⟨"main", "local", true⟩,
            ⟨"feature-a", "local", false⟩, ⟨"feature-b", "local", false⟩]
          "h").filtered
          ((tui.newBranchModel [⟨"main", "local", true⟩,
              ⟨"feature-a", "local", false⟩, ⟨"feature-b", "local", false⟩]
            "h").Update tui.Event.moveUp).selected = false ∧
        ((tui.newBranchModel [⟨"main", "local", true⟩,
            ⟨"feature-a", "local", false⟩, ⟨"feature-b", "local", false⟩]
          "h").Update tui.Event.moveUp).selected
          < (tui.newBranchModel [⟨"main", "local", true⟩,
              ⟨"feature-a", "local", false⟩, ⟨"feature-b", "local", false⟩]
            "h").selected ∧
        ∀ j : Int, ((tui.newBranchModel [⟨"main", "local", true⟩,
            ⟨"feature-a", "local", false⟩, ⟨"feature-b", "local", false⟩]
          "h").Update tui.Event.moveUp).selected < j →
          j < (tui.newBranchModel [⟨"main", "local", true⟩,
              ⟨"feature-a", "local", false⟩, ⟨"feature-b", "local", false⟩]
            "h").selected →
          tui.disabledAt (tui.newBranchModel [⟨"main", "local", true⟩,
              ⟨"feature-a", "local", false⟩, ⟨"feature-b", "local", false⟩]
            "h").filtered j = true) ∨
      ((tui.newBranchModel [⟨"main", "local", true⟩,
          ⟨"feature-a", "local", false⟩, ⟨"feature-b", "local", false⟩]
        "h").Update tui.Event.moveUp).selected
        = (tui.newBranchModel [⟨"main", "local", true⟩,
            ⟨"feature-a", "local", false⟩, ⟨"feature-b", "local", false⟩]
          "h").selected) :=
  C2_move_walk _ (tui.newBranchModel_consistent _ _) rfl rfl (by decide)
    ⟨by decide, by decide⟩ (fun _ => by decide)

/-! ## Claim C3: the fix-up after re-filtering -/

/-- C3 (counterexample): entries `[zza (selectable), a (disabled),
za (disabled)]`, initial cursor 0; after `TextChanged("a")` the filtered
list is `[a, za, zza]` (by descending score), the clamped cursor lands on
the disabled entry at 0 and the entry one step forward (index 1) is also
disabled — yet the cursor ends at index 2, on the *selectable* entry: the
fix-up is a full skip-walk, not a single step. -/
theorem C3_counterexample :
    tui.clampSel
      (tui.branchComputeFiltered [⟨"zza", "local", false⟩,
        ⟨"a", "local", true⟩, ⟨"za", "local", true⟩] "a").length
      (tui.newBranchModel [⟨"zza", "local", false⟩, ⟨"a", "local", true⟩,
        ⟨"za", "local", true⟩] "h").selected = 0 ∧
    tui.disabledAt (tui.branchComputeFiltered [⟨"zza", "local", false⟩,
      ⟨"a", "local", true⟩, ⟨"za", "local", true⟩] "a") 0 = true ∧
    tui.disabledAt (tui.branchComputeFiltered [⟨"zza", "local", false⟩,
      ⟨"a", "local", true⟩, ⟨"za", "local", true⟩] "a") 1 = true ∧
    ((tui.newBranchModel [⟨"zza", "local", false⟩, ⟨"a", "local", true⟩,
        ⟨"za", "local", true⟩] "h").Update
      (tui.Event.textChanged "a")).selected = 2 ∧
    tui.disabledAt (tui.branchComputeFiltered [⟨"zza", "local", false⟩,
      ⟨"a", "local", true⟩, ⟨"za", "local", true⟩] "a") 2 = false := by decide

/-- C3 (amended): after a `TextChanged` event re-filters the entries and
clamps the cursor, if the entry under the clamped cursor is
non-selectable the model performs a *full* forward skip-walk (the same
`moveSelection(1)` walk as explicit navigation): the cursor moves forward
past every disabled entry to the first selectable one, or to the last
index when no selectable entry lies forward. -/
theorem C3_refilter_fixup (m : tui.branchModel) (q : String)
    (hca : m.cancelled = false) (hdo : m.done = false)
    (h0 : 0 ≤ m.selected) :
    (m.Update (tui.Event.textChanged q)).filtered
      = tui.branchComputeFiltered m.entries q ∧
    (tui.disabledAt (tui.branchComputeFiltered m.entries q)
        (tui.clampSel (tui.branchComputeFiltered m.entries q).length
          m.selected) = false →
      (m.Update (tui.Event.textChanged q)).selected
        = tui.clampSel (tui.branchComputeFiltered m.entries q).length
            m.selected) ∧
    (0 < (tui.branchComputeFiltered m.entries q).length →
      tui.disabledAt (tui.branchComputeFiltered m.entries q)
        (tui.clampSel (tui.branchComputeFiltered m.entries q).length
          m.selected) = true →
      (tui.clampSel (tui.branchComputeFiltered m.entries q).length m.selected
          ≤ (m.Update (tui.Event.textChanged q)).selected ∧
        (m.Update (tui.Event.textChanged q)).selected
          < ((tui.branchComputeFiltered m.entries q).length : Int) ∧
        (∀ j : Int,
          tui.clampSel (tui.branchComputeFiltered m.entries q).length
            m.selected < j →
          j < (m.Update (tui.Event.textChanged q)).selected →
          tui.disabledAt (tui.branchComputeFiltered m.entries q) j = true) ∧
        (tui.disabledAt (tui.branchComputeFiltered m.entries q)
            (m.Update (tui.Event.textChanged q)).selected = false ∨
          ((m.Update (tui.Event.textChanged q)).selected
              = ((tui.branchComputeFiltered m.entries q).length : Int) - 1 ∧
            ∀ j : Int,
              tui.clampSel (tui.branchComputeFiltered m.entries q).length
                m.selected < j →
              j < ((tui.branchComputeFiltered m.entries q).length : Int) →
              tui.disabledAt (tui.branchComputeFiltered m.entries q) j
                = true)))) := by
  obtain ⟨hfl, hsel⟩ := tui.branchModel.Update_textChanged_eq m q hca hdo
  obtain ⟨hc0, hc1⟩ :=
    tui.clampSel_bounds (tui.branchComputeFiltered m.entries q).length
      m.selected h0
  refine ⟨hfl, ?_, ?_⟩
  · intro hsl
    rw [hsel, tui.fixSel_eq_of_selectable _ _ hsl]
  · intro hlen hd
    have hmax : max 0 (((tui.branchComputeFiltered m.entries q).length : Int)
        - 1) = ((tui.branchComputeFiltered m.entries q).length : Int) - 1 :=
      max_eq_right (by omega)
    have hcl : tui.clampSel (tui.branchComputeFiltered m.entries q).length
        m.selected < ((tui.branchComputeFiltered m.entries q).length : Int) := by
      omega
    rw [hsel, tui.fixSel_eq_of_disabled _ _ hlen hd]
    exact ⟨(tui.branchModel.moveSelection_down_spec _ _ hc0 hcl).1.1,
      (tui.branchModel.moveSelection_down_spec _ _ hc0 hcl).1.2,
      (tui.branchModel.moveSelection_down_spec _ _ hc0 hcl).2.1,
      (tui.branchModel.moveSelection_down_spec _ _ hc0 hcl).2.2⟩

/-- Witness for C3 (amended) on the counterexample scenario, where the
fix-up actually walks two steps. -/
theorem C3_refilter_fixup_witness :
    ((tui.newBranchModel [⟨"zza", "local", false⟩, ⟨"a", "local", true⟩,
        ⟨"za", "local", true⟩] "h").Update
      (tui.Event.textChanged "a")).filtered
      = tui.branchComputeFiltered
          (tui.newBranchModel [⟨"zza", "local", false⟩, ⟨"a", "local", true⟩,
            ⟨"za", "local", true⟩] "h").entries "a" ∧
    0 < (tui.branchComputeFiltered
        (tui.newBranchModel [⟨"zza", "local", false⟩, ⟨"a", "local", true⟩,
          ⟨"za", "local", true⟩] "h").entries "a").length ∧
    tui.disabledAt
      (tui.branchComputeFiltered
        (tui.newBranchModel [⟨"zza", "local", false⟩, ⟨"a", "local", true⟩,
          ⟨"za", "local", true⟩] "h").entries "a")
      (tui.clampSel (tui.branchComputeFiltered
          (tui.newBranchModel [⟨"zza", "local", false⟩, ⟨"a", "local", true⟩,
            ⟨"za", "local", true⟩] "h").entries "a").length
        (tui.newBranchModel [⟨"zza", "local", false⟩, ⟨"a", "local", true⟩,
          ⟨"za", "local", true⟩] "h").selected) = true ∧
    (tui.disabledAt
      (tui.branchComputeFiltered
        (tui.newBranchModel [⟨"zza", "local", false⟩, ⟨"a", "local", true⟩,
          ⟨"za", "local", true⟩] "h").entries "a")
      ((tui.newBranchModel [⟨"zza", "local", false⟩, ⟨"a", "local", true⟩,
          ⟨"za", "local", true⟩] "h").Update
        (tui.Event.textChanged "a")).selected = false ∨
      (((tui.newBranchModel [⟨"zza", "local", false⟩, ⟨"a", "local", true⟩,
          ⟨"za", "local", true⟩] "h").Update
        (tui.Event.textChanged "a")).selected
        = ((tui.branchComputeFiltered
            (tui.newBranchModel [⟨"zza", "local", false⟩,
              ⟨"a", "local", true⟩, ⟨"za", "local", true⟩] "h").entries
            "a").length : Int) - 1 ∧
        ∀ j : Int,
          tui.clampSel (tui.branchComputeFiltered
              (tui.newBranchModel [⟨"zza", "local", false⟩,
                ⟨"a", "local", true⟩, ⟨"za", "local", true⟩] "h").entries
              "a").length
            (tui.newBranchModel [⟨"zza", "local", false⟩,
              ⟨"a", "local", true⟩, ⟨"za", "local", true⟩] "h").selected < j →
          j < ((tui.branchComputeFiltered
              (tui.newBranchModel [⟨"zza", "local", false⟩,
                ⟨"a", "local", true⟩, ⟨"za", "local", true⟩] "h").entries
              "a").length : Int) →
          tui.disabledAt (tui.branchComputeFiltered
              (tui.newBranchModel [⟨"zza", "local", false⟩,
                ⟨"a", "local", true⟩, ⟨"za", "local", true⟩] "h").entries
              "a") j = true)) := by
  refine ⟨(C3_refilter_fixup (tui.newBranchModel [⟨"zza", "local", false⟩,
      ⟨"a", "local", true⟩, ⟨"za", "local", true⟩] "h") "a" rfl rfl
      (by decide)).1, by decide, by decide, ?_⟩
  exact ((C3_refilter_fixup (tui.newBranchModel [⟨"zza", "local", false⟩,
      ⟨"a", "local", true⟩, ⟨"za", "local", true⟩] "h") "a" rfl rfl
      (by decide)).2.2 (by decide) (by decide)).2.2.2

/-! ## Claim C8: what Confirm does -/

/-- C8 (counterexample): with two disabled entries, the initial cursor is
on the non-selectable entry at index 0, and a `Confirm` event leaves the
session `Active` but *changes the state*: the fall-through fix-up moves
the cursor from 0 to 1, so the state is not unchanged as claimed. -/
theorem C8_counterexample :
    tui.disabledAt
      (tui.newBranchModel [⟨"a", "local", true⟩, ⟨"b", "local", true⟩]
        "h").filtered
      (tui.newBranchModel [⟨"a", "local", true⟩, ⟨"b", "local", true⟩]
        "h").selected = true ∧
    ((tui.newBranchModel [⟨"a", "local", true⟩, ⟨"b", "local", true⟩]
        "h").Update tui.Event.confirm).done = false ∧
    ((tui.newBranchModel [⟨"a", "local", true⟩, ⟨"b", "local", true⟩]
        "h").Update tui.Event.confirm).cancelled = false ∧
    ((tui.newBranchModel [⟨"a", "local", true⟩, ⟨"b", "local", true⟩]
        "h").Update tui.Event.confirm)
      ≠ tui.newBranchModel [⟨"a", "local", true⟩, ⟨"b", "local", true⟩]
        "h" := by decide

/-- C8 (amended): on every consistent, in-bounds `Active` state of the
disabled-entry picker: `Confirm` with an empty filtered list leaves the
state unchanged; `Confirm` with a non-selectable entry under the cursor
produces no terminal transition and leaves the filtered list, query and
entries unchanged (the fall-through fix-up may move the cursor);
`Confirm` with a selectable entry under the cursor reaches the terminal
`Selected` state (`done := true`, everything else unchanged); and
`Confirm` is the only event that produces `Selected`. -/
theorem C8_confirm_behavior (m : tui.branchModel)
    (hc : m.Consistent) (hca : m.cancelled = false) (hdo : m.done = false)
    (hin : m.InBounds) :
    (m.filtered.length = 0 → m.Update tui.Event.confirm = m) ∧
    (0 < m.filtered.length →
      tui.disabledAt m.filtered m.selected = true →
      ((m.Update tui.Event.confirm).done = false ∧
        (m.Update tui.Event.confirm).cancelled = false ∧
        (m.Update tui.Event.confirm).filtered = m.filtered ∧
        (m.Update tui.Event.confirm).entries = m.entries ∧
        (m.Update tui.Event.confirm).query = m.query)) ∧
    (0 < m.filtered.length →
      tui.disabledAt m.filtered m.selected = false →
      m.Update tui.Event.confirm = { m with done := true }) ∧
    (∀ ev : tui.Event, (m.Update ev).done = true → ev = tui.Event.confirm) := by
  obtain ⟨hpos, hneg⟩ := tui.branchModel.Update_confirm_eq m hca hdo
  refine ⟨?_, ?_, ?_, ?_⟩
  · intro h0
    rw [hneg (by rintro ⟨hl, -⟩; omega)]
    apply tui.branchModel.filterAndFix_eq_self m hc
    have hsel0 : m.selected = 0 := by
      have h1 := hin.1
      have h2 := hin.2
      rw [h0] at h2
      simp at h2
      omega
    rw [hsel0, h0]
    have hcl : tui.clampSel 0 0 = 0 := by decide
    rw [hcl]
    unfold tui.fixSel
    rw [if_neg]
    rintro ⟨hl, -⟩
    omega
  · intro hlen hd
    have hEq := hneg (by
      rintro ⟨-, hsel⟩
      unfold tui.disabledAt at hd
      rw [hd] at hsel
      cases hsel)
    rw [hEq]
    exact ⟨hdo, hca, hc.symm, rfl, rfl⟩
  · intro hlen hs
    exact hpos ⟨hlen, hs⟩
  · intro ev h
    exact tui.branchModel.Update_done_confirm m ev hca hdo h

/-- Witness for C8 (amended) on a concrete two-entry picker with one
selectable entry. -/
theorem C8_confirm_behavior_witness :
    ((tui.newBranchModel [⟨"main", "local", true⟩,
        ⟨"feature-a", "local", false⟩] "h").filtered.length = 0 →
      (tui.newBranchModel [⟨"main", "local", true⟩,
        ⟨"feature-a", "local", false⟩] "h").Update tui.Event.confirm
        = tui.newBranchModel [⟨"main", "local", true⟩,
            ⟨"feature-a", "local", false⟩] "h") ∧
    (0 < (tui.newBranchModel [⟨"main", "local", true⟩,
        ⟨"feature-a", "local", false⟩] "h").filtered.length →
      tui.disabledAt (tui.newBranchModel [⟨"main", "local", true⟩,
          ⟨"feature-a", "local", false⟩] "h").filtered
        (tui.newBranchModel [⟨"main", "local", true⟩,
          ⟨"feature-a", "local", false⟩] "h").selected = true →
      (((tui.newBranchModel [⟨"main", "local", true⟩,
          ⟨"feature-a", "local", false⟩] "h").Update
          tui.Event.confirm).done = false ∧
        ((tui.newBranchModel [⟨"main", "local", true⟩,
          ⟨"feature-a", "local", false⟩] "h").Update
          tui.Event.confirm).cancelled = false ∧
        ((tui.newBranchModel [⟨"main", "local", true⟩,
          ⟨"feature-a", "local", false⟩] "h").Update
          tui.Event.confirm).filtered
          = (tui.newBranchModel [⟨"main", "local", true⟩,
              ⟨"feature-a", "local", false⟩] "h").filtered ∧
        ((tui.newBranchModel [⟨"main", "local", true⟩,
          ⟨"feature-a", "local", false⟩] "h").Update
          tui.Event.confirm).entries
          = (tui.newBranchModel [⟨"main", "local", true⟩,
              ⟨"feature-a", "local", false⟩] "h").entries ∧
        ((tui.newBranchModel [⟨"main", "local", true⟩,
          ⟨"feature-a", "local", false⟩] "h").Update
          tui.Event.confirm).query
          = (tui.newBranchModel [⟨"main", "local", true⟩,
              ⟨"feature-a", "local", false⟩] "h").query)) ∧
    (0 < (tui.newBranchModel [⟨"main", "local", true⟩,
        ⟨"feature-a", "local", false⟩] "h").filtered.length →
      tui.disabledAt (tui.newBranchModel [⟨"main", "local", true⟩,
          ⟨"feature-a", "local", false⟩] "h").filtered
        (tui.newBranchModel [⟨"main", "local", true⟩,
          ⟨"feature-a", "local", false⟩] "h").selected = false →
      (tui.newBranchModel [⟨"main", "local", true⟩,
        ⟨"feature-a", "local", false⟩] "h").Update tui.Event.confirm
        = { tui.newBranchModel [⟨"main", "local", true⟩,
            ⟨"feature-a", "local", false⟩] "h" with done := true }) ∧
    (∀ ev : tui.Event,
      ((tui.newBranchModel [⟨"main", "local", true⟩,
        ⟨"feature-a", "local", false⟩] "h").Update ev).done = true →
      ev = tui.Event.confirm) :=
  C8_confirm_behavior _ (tui.newBranchModel_consistent _ _) rfl rfl
    ⟨by decide, by decide⟩

/-! ## Claim C10: the cursor is always a valid index -/

/-- C10: in both pickers, after construction and any sequence of events,
the cursor satisfies `0 ≤ selected ≤ max 0 (len(filtered) - 1)`; in
particular, whenever the filtered list is non-empty the cursor is a
valid index into it. -/
theorem C10_cursor_in_bounds (bEntries : List tui.BranchEntry) (hdr : String)
    (wEntries : List tui.Entry) (evs : List tui.Event) :
    (0 ≤ (evs.foldl tui.branchModel.Update
        (tui.newBranchModel bEntries hdr)).selected ∧
      (evs.foldl tui.branchModel.Update
        (tui.newBranchModel bEntries hdr)).selected
        ≤ max 0 (((evs.foldl tui.branchModel.Update
            (tui.newBranchModel bEntries hdr)).filtered.length : Int) - 1) ∧
      (0 < (evs.foldl tui.branchModel.Update
          (tui.newBranchModel bEntries hdr)).filtered.length →
        (evs.foldl tui.branchModel.Update
          (tui.newBranchModel bEntries hdr)).selected
          < ((evs.foldl tui.branchModel.Update
              (tui.newBranchModel bEntries hdr)).filtered.length : Int))) ∧
    (0 ≤ (evs.foldl tui.model.Update (tui.newModel wEntries)).selected ∧
      (evs.foldl tui.model.Update (tui.newModel wEntries)).selected
        ≤ max 0 (((evs.foldl tui.model.Update
            (tui.newModel wEntries)).filtered.length : Int) - 1) ∧
      (0 < (evs.foldl tui.model.Update (tui.newModel wEntries)).filtered.length →
        (evs.foldl tui.model.Update (tui.newModel wEntries)).selected
          < ((evs.foldl tui.model.Update
              (tui.newModel wEntries)).filtered.length : Int))) := by
  obtain ⟨hb1, hb2⟩ := tui.branchModel.foldl_inBounds evs _
    (tui.newBranchModel_inBounds bEntries hdr)
  obtain ⟨hw1, hw2⟩ := tui.model.foldl_preserves_inBounds evs _
    (tui.newModel_inBounds wEntries)
  refine ⟨⟨hb1, hb2, ?_⟩, ⟨hw1, hw2, ?_⟩⟩
  · intro hpos
    have hmax : max 0 (((evs.foldl tui.branchModel.Update
        (tui.newBranchModel bEntries hdr)).filtered.length : Int) - 1)
        = ((evs.foldl tui.branchModel.Update
            (tui.newBranchModel bEntries hdr)).filtered.length : Int) - 1 :=
      max_eq_right (by omega)
    omega
  · intro hpos
    have hmax : max 0 (((evs.foldl tui.model.Update
        (tui.newModel wEntries)).filtered.length : Int) - 1)
        = ((evs.foldl tui.model.Update
            (tui.newModel wEntries)).filtered.length : Int) - 1 :=
      max_eq_right (by omega)
    omega

/-- Witness for C10 evaluated on a concrete run of both pickers. -/
theorem C10_cursor_in_bounds_witness :
    (0 ≤ ([tui.Event.moveDown, tui.Event.moveDown].foldl tui.branchModel.Update
        (tui.newBranchModel [⟨"main", "local", true⟩,
          ⟨"feature-a", "local", false⟩] "h")).selected ∧
      ([tui.Event.moveDown, tui.Event.moveDown].foldl tui.branchModel.Update
        (tui.newBranchModel [⟨"main", "local", true⟩,
          ⟨"feature-a", "local", false⟩] "h")).selected
        ≤ max 0 ((([tui.Event.moveDown, tui.Event.moveDown].foldl
            tui.branchModel.Update (tui.newBranchModel [⟨"main", "local", true⟩,
              ⟨"feature-a", "local", false⟩] "h")).filtered.length : Int) - 1) ∧
      (0 < ([tui.Event.moveDown, tui.Event.moveDown].foldl tui.branchModel.Update
          (tui.newBranchModel [⟨"main", "local", true⟩,
            ⟨"feature-a", "local", false⟩] "h")).filtered.length →
        ([tui.Event.moveDown, tui.Event.moveDown].foldl tui.branchModel.Update
          (tui.newBranchModel [⟨"main", "local", true⟩,
            ⟨"feature-a", "local", false⟩] "h")).selected
          < (([tui.Event.moveDown, tui.Event.moveDown].foldl
              tui.branchModel.Update (tui.newBranchModel
                [⟨"main", "local", true⟩,
                  ⟨"feature-a", "local", false⟩] "h")).filtered.length : Int))) ∧
    (0 ≤ ([tui.Event.moveDown, tui.Event.moveDown].foldl tui.model.Update
        (tui.newModel [⟨"a", "/a", "a", false⟩])).selected ∧
      ([tui.Event.moveDown, tui.Event.moveDown].foldl tui.model.Update
        (tui.newModel [⟨"a", "/a", "a", false⟩])).selected
        ≤ max 0 ((([tui.Event.moveDown, tui.Event.moveDown].foldl tui.model.Update
            (tui.newModel [⟨"a", "/a", "a", false⟩])).filtered.length : Int) - 1) ∧
      (0 < ([tui.Event.moveDown, tui.Event.moveDown].foldl tui.model.Update
          (tui.newModel [⟨"a", "/a", "a", false⟩])).filtered.length →
        ([tui.Event.moveDown, tui.Event.moveDown].foldl tui.model.Update
          (tui.newModel [⟨"a", "/a", "a", false⟩])).selected
          < (([tui.Event.moveDown, tui.Event.moveDown].foldl tui.model.Update
              (tui.newModel [⟨"a", "/a", "a", false⟩])).filtered.length : Int))) :=
  C10_cursor_in_bounds [⟨"main", "local", true⟩, ⟨"feature-a", "local", false⟩]
    "h" [⟨"a", "/a", "a", false⟩] [tui.Event.moveDown, tui.Event.moveDown]

end Wt

